import Mathlib

/-!
Verification of the TEES/EVEX XML → standoff conversion core
(`scripts/teesxml.py`): a shallow embedding of the document / sentence /
span object model, the element parsers, the normalization resolver, the
identifier-allocation pass and the annotation-line serialization, together
with theorems settling the specified properties.

Python conventions are modelled as follows:
* exceptions are an explicit error type `PyErr`; fallible code returns
  `Except PyErr _`;
* the process-global `_generate_unique.cache` `Counter` and the warning
  log are an explicit state record `PyState` threaded through the code
  paths that touch them;
* XML elements are a tree of tag / attribute-list / children; attribute
  dictionaries are association lists with unique keys (ElementTree
  guarantees attribute-name uniqueness);
* XML attribute values are strings; a value that may also be the integer
  `-99` default (`headScore`) is the sum type `PyVal`.

The file is organised as definitions (translated from the source) first,
then theorems.
-/

namespace Tees

/-- Python exception classes that the modelled code can raise.
`formatError` is the module's own `FormatError`; the rest are builtins. -/
inductive PyErr : Type where
  | keyError (key : String)
  | valueError
  | assertionError
  | attributeError
  | typeError
  | indexError
  | formatError (msg : String)
  deriving DecidableEq, Repr

deriving instance DecidableEq for Except

/-- An `xml.etree.ElementTree` element: tag, attribute dictionary
(association list, unique keys), child elements in document order. -/
inductive Element : Type where
  | mk (tag : String) (attrib : List (String × String)) (children : List Element)

def Element.tag : Element → String
  | .mk t _ _ => t

def Element.attrib : Element → List (String × String)
  | .mk _ a _ => a

def Element.children : Element → List Element
  | .mk _ _ c => c

/-- Dictionary lookup on an association list (keys are unique). -/
def lookupA : List (String × String) → String → Option String
  | [], _ => none
  | (k', v) :: rest, k => if k' = k then some v else lookupA rest k

/-- `element.attrib[key]` as an option. -/
def Element.lookup (el : Element) (key : String) : Option String :=
  lookupA el.attrib key

/-- `element.findall(tag)`: direct children with the given tag. -/
def Element.findall (el : Element) (t : String) : List Element :=
  el.children.filter (fun c => c.tag == t)

/-- Command-line options relevant to the core (`--recover`,
`--no-tokens`, `--phrases`); absent options default to `False` as in
`getattr(options, ..., False)`. -/
structure Options where
  recover : Bool := false
  no_tokens : Bool := false
  phrases : Bool := false
  deriving DecidableEq, Repr

/-- The `collections.Counter` backing `_generate_unique.cache`:
an association list, missing keys count 0. -/
def cacheGet : List (String × Nat) → String → Nat
  | [], _ => 0
  | (k', v) :: rest, k => if k' = k then v else cacheGet rest k

/-- `cache[k] += 1` on a `Counter` association list. -/
def cacheBump : List (String × Nat) → String → List (String × Nat)
  | [], k => [(k, 1)]
  | (k', v) :: rest, k =>
    if k' = k then (k', v + 1) :: rest else (k', v) :: cacheBump rest k

/-- Process-global mutable state: the `_generate_unique` counter cache and
the log of emitted warnings. -/
structure PyState where
  cache : List (String × Nat) := []
  warnings : List String := []
  deriving DecidableEq, Repr

/-- `_generate_unique(prefix)`: bump the counter for the prefix and return
the prefix followed by the new counter value. -/
def generateUnique (pre : String) (st : PyState) : String × PyState :=
  let n := cacheGet st.cache pre + 1
  (pre ++ Nat.repr n, { st with cache := cacheBump st.cache pre })

/-- `get_attrib(element, key, options)`: return the attribute value;
on a missing key, raise `KeyError` unless `options.recover`, in which case
synthesize a fresh `MISSING.<n>` placeholder and log a warning. -/
def getAttrib (el : Element) (key : String) (opts : Options) (st : PyState) :
    Except PyErr String × PyState :=
  match el.lookup key with
  | some v => (.ok v, st)
  | none =>
    if opts.recover then
      let (v, st') := generateUnique "MISSING." st
      (.ok v,
       { st' with warnings := st'.warnings ++
          ["recover: replace missing " ++ key ++ " in " ++ el.tag ++
           " with " ++ v] })
    else
      (.error (.keyError key), st)

/-! ### Decimal rendering

`'{}'.format(n)` renders a natural number in decimal; in the embedding
this is `Nat.repr`.  `natDigitsBE` is a specification of the same digit
sequence used to prove `Nat.repr` injective. -/

/-- Big-endian decimal digit characters of a natural number. -/
def natDigitsBE (n : Nat) : List Char :=
  if h : n < 10 then [Nat.digitChar n]
  else natDigitsBE (n / 10) ++ [Nat.digitChar (n % 10)]
  decreasing_by
    exact Nat.div_lt_self (by omega) (by omega)

/-- Numeric value of a big-endian digit-character list. -/
def digitsVal (l : List Char) : Nat :=
  l.foldl (fun a c => 10 * a + (c.toNat - 48)) 0

/-! ### Offset parsing

`Span.__init__` / `Sentence.__init__` parse a `charOffset` attribute with
`self.start, self.end = map(int, offset.split('-'))` followed by
`assert self.start <= self.end`.  Malformed splits and non-integer parts
raise `ValueError`; a reversed range raises `AssertionError`. -/

/-- `str.split(sep)` for a one-character separator: keeps empty chunks. -/
def splitChar (sep : Char) : List Char → List (List Char)
  | [] => [[]]
  | c :: rest =>
    if c = sep then [] :: splitChar sep rest
    else
      match splitChar sep rest with
      | [] => [[c]]
      | g :: gs => (c :: g) :: gs

/-- Strip leading and trailing whitespace, as `int(str)` does. -/
def stripChars (l : List Char) : List Char :=
  ((l.dropWhile Char.isWhitespace).reverse.dropWhile Char.isWhitespace).reverse

/-- Python `int(s)`: optional surrounding whitespace, optional sign, then a
non-empty run of decimal digits; anything else raises `ValueError`
(modelled as `none`). -/
def pyInt? (s : List Char) : Option Int :=
  match stripChars s with
  | [] => none
  | c :: ds =>
    if c = '+' then
      if ds ≠ [] ∧ ds.all Char.isDigit then some (digitsVal ds) else none
    else if c = '-' then
      if ds ≠ [] ∧ ds.all Char.isDigit then some (-(digitsVal ds : Int))
      else none
    else
      if (c :: ds).all Char.isDigit then some (digitsVal (c :: ds)) else none

/-- `start, end = map(int, offset.split('-'))` plus
`assert start <= end`. -/
def parseOffset (offset : String) : Except PyErr (Int × Int) :=
  match splitChar '-' offset.data with
  | [a, b] =>
    match pyInt? a, pyInt? b with
    | some x, some y =>
      if x ≤ y then .ok (x, y) else .error .assertionError
    | _, _ => .error .valueError
  | _ => .error .valueError

/-! ### Normalization resolver

`get_norm_curie` and `Entity.get_normalization`. -/

/-- `get_norm_curie(norm_type, norm_id)`: CURIE form for an EVEX
normalization type and id (unknown types warn and fall back to
`type:id`). -/
def getNormCurie (ty nid : String) : String :=
  if ty = "ncbitax_id" then "NCBITaxon:" ++ nid
  else if ty = "entrezgene_id" then "ncbigene:" ++ nid
  else if ty = "cellline_acc" then "cellosaurus:" ++ nid
  else if ty = "cui" ∧ "CHEBI:".data.isPrefixOf nid.data then nid
  else if ty = "cui" then "mesh:" ++ nid
  else ty ++ ":" ++ nid

/-- The attribute scan of `Entity.get_normalization`: split `norm_*`
attributes into the normalization family (`norms`) and the confidence
family (`confs`), keyed by the type suffix. -/
def gatherNormConfs :
    List (String × String) → List (String × String) × List (String × String)
  | [] => ([], [])
  | (k, v) :: rest =>
    if "norm_".data.isPrefixOf k.data then
      let k2 : String := ⟨k.data.drop 5⟩
      if "_conf".data.isSuffixOf k2.data then
        let p := gatherNormConfs rest
        (p.1, (⟨k2.data.take (k2.data.length - 5)⟩, v) :: p.2)
      else
        let p := gatherNormConfs rest
        ((k2, v) :: p.1, p.2)
    else gatherNormConfs rest

/-- The pairing loop of `Entity.get_normalization`, iterating the key set
in the given order: keys present in only one family are dropped (with a
warning), the `entrezgene_id`/`0` and `cui`/`NA` empty sentinels are
dropped, other keys become candidate `(type, id, conf)` triples. -/
def candidatesWith (order : List String) (ns cs : List (String × String)) :
    List (String × String × String) :=
  order.filterMap (fun k =>
    match lookupA ns k, lookupA cs k with
    | some n, some c =>
      if (k = "entrezgene_id" ∧ n = "0") ∨ (k = "cui" ∧ n = "NA") then none
      else some (k, n, c)
    | _, _ => none)

/-- `Entity.get_normalization(element)` with the iteration order of
`set(norms.keys()) | set(confs.keys())` made explicit: the first
surviving candidate (extras warned about and discarded) is converted to a
CURIE, or `(None, None)` if no candidate survived. -/
def getNormalizationWith (order : List String) (el : Element) :
    Option String × Option String :=
  let p := gatherNormConfs el.attrib
  match candidatesWith order p.1 p.2 with
  | [] => (none, none)
  | (k, n, c) :: _ => (some (getNormCurie k n), some c)

/-- One enumeration of the key set `set(norms.keys()) | set(confs.keys())`
(CPython iterates it in unspecified hash order; order-independence for at
most one surviving candidate is proved below). -/
def normKeyOrder (el : Element) : List String :=
  let p := gatherNormConfs el.attrib
  p.1.map Prod.fst ++
    (p.2.map Prod.fst).filter (fun k => ¬ (p.1.map Prod.fst).contains k)

/-- `Entity.get_normalization(element)` at the canonical key order. -/
def getNormalization (el : Element) : Option String × Option String :=
  getNormalizationWith (normKeyOrder el) el

/-! ### The object model

Tagged-variant rendering of the `Span` class hierarchy; back-references
(`sentence`, `document`) are replaced by passing the owner explicitly. -/

/-- A Python value that is either an `int` or a `str` (the type of
`Token.head_score`, which is `-99` or the raw attribute string). -/
inductive PyVal : Type where
  | int (n : Int)
  | str (s : String)
  deriving DecidableEq, Repr

/-- `Token`: a `Span` with `id`, `POS`, text and a head score.
`type` is fixed to `"Token"`. -/
structure Token where
  id : String
  pos : String
  offset : String
  start : Int
  end_ : Int
  text : String
  head_score : PyVal
  type_ : String
  uid : Option String
  deriving DecidableEq, Repr

/-- `Entity`: a `Span` with original id and optional normalization. -/
structure Entity where
  id : String
  type_ : String
  offset : String
  start : Int
  end_ : Int
  text : String
  orig_id : String
  norm_id : Option String
  norm_conf : Option String
  uid : Option String
  norm_uid : Option String
  deriving DecidableEq, Repr

/-- `Phrase`: a `Span` whose `type` carries the `Phrase-` marker and whose
text is derived later from the sentence text. -/
structure Phrase where
  id : String
  type_ : String
  offset : String
  start : Int
  end_ : Int
  text : Option String
  uid : Option String
  deriving DecidableEq, Repr

/-- `Dependency`: a relation between two source-local token ids. -/
structure Dependency where
  id : String
  type_ : String
  start : String
  end_ : String
  uid : Option String
  deriving DecidableEq, Repr

/-- `Sentence`: offsets, text and the parsed element lists. -/
structure Sentence where
  id : String
  text : String
  offset : String
  start : Int
  end_ : Int
  entities : List Entity
  tokens : List Token
  phrases : List Phrase
  dependencies : List Dependency
  deriving DecidableEq, Repr

/-- `Document`: id, original id, text and the assembled sentences. -/
structure Document where
  id : String
  orig_id : String
  text : String
  sentences : List Sentence
  deriving DecidableEq, Repr

/-! ### Element parsers -/

/-- `Token.from_xml`: required attributes `id`, `POS`, `charOffset`,
`text` (plain dictionary access — `KeyError` when absent, recovery mode
notwithstanding); `headScore` defaults to the `-99` sentinel; the offset
is parsed by `Span.__init__`. -/
def tokenFromXml (_opts : Options) (el : Element) : Except PyErr Token :=
  match el.lookup "id" with
  | none => .error (.keyError "id")
  | some id_ =>
  match el.lookup "POS" with
  | none => .error (.keyError "POS")
  | some pos =>
  match el.lookup "charOffset" with
  | none => .error (.keyError "charOffset")
  | some off =>
  match el.lookup "text" with
  | none => .error (.keyError "text")
  | some tx =>
  let hs : PyVal :=
    match el.lookup "headScore" with
    | some v => .str v
    | none => .int (-99)
  match parseOffset off with
  | .error e => .error e
  | .ok (a, b) =>
    .ok { id := id_, pos := pos, offset := off, start := a, end_ := b,
          text := tx, head_score := hs, type_ := "Token", uid := none }

/-- `Dependency.from_xml`: required attributes `id`, `t1`, `t2`, `type`
(plain dictionary access). -/
def dependencyFromXml (_opts : Options) (el : Element) :
    Except PyErr Dependency :=
  match el.lookup "id" with
  | none => .error (.keyError "id")
  | some id_ =>
  match el.lookup "t1" with
  | none => .error (.keyError "t1")
  | some t1 =>
  match el.lookup "t2" with
  | none => .error (.keyError "t2")
  | some t2 =>
  match el.lookup "type" with
  | none => .error (.keyError "type")
  | some ty =>
    .ok { id := id_, type_ := ty, start := t1, end_ := t2, uid := none }

/-- `Phrase.from_xml`: required attributes `id`, `type`, `charOffset`
(plain dictionary access); the raw type gets the `Phrase-` marker and the
text stays unset until `assign_text`. -/
def phraseFromXml (_opts : Options) (el : Element) : Except PyErr Phrase :=
  match el.lookup "id" with
  | none => .error (.keyError "id")
  | some id_ =>
  match el.lookup "type" with
  | none => .error (.keyError "type")
  | some ty =>
  match el.lookup "charOffset" with
  | none => .error (.keyError "charOffset")
  | some off =>
  match parseOffset off with
  | .error e => .error e
  | .ok (a, b) =>
    .ok { id := id_, type_ := "Phrase-" ++ ty, offset := off,
          start := a, end_ := b, text := none, uid := none }

/-- Resolve one Python slice index against a length. -/
def pySliceIdx (len : Nat) (i : Int) : Nat :=
  if i < 0 then (len + i).toNat else min i.toNat len

/-- Python string slice `s[a:b]`. -/
def pySlice (s : String) (a b : Int) : String :=
  let n := s.data.length
  let lo := pySliceIdx n a
  let hi := pySliceIdx n b
  ⟨(s.data.drop lo).take (hi - lo)⟩

/-- `Phrase.assign_text(sentence_text)`:
`self.text = sentence_text[self.start:self.end]`. -/
def Phrase.assign_text (p : Phrase) (sentence_text : String) : Phrase :=
  { p with text := some (pySlice sentence_text p.start p.end_) }

/-- `Entity.from_xml`: `id` and `origId` through `get_attrib` (recovery
applies), `entity_type`, `charOffset`, `text` through plain dictionary
access; normalization resolved from the attribute set; the offset is
parsed by `Span.__init__`. -/
def entityFromXml (opts : Options) (el : Element) (st : PyState) :
    Except PyErr Entity × PyState :=
  match getAttrib el "id" opts st with
  | (.error e, st') => (.error e, st')
  | (.ok id_, st') =>
  match el.lookup "entity_type" with
  | none => (.error (.keyError "entity_type"), st')
  | some ty =>
  match el.lookup "charOffset" with
  | none => (.error (.keyError "charOffset"), st')
  | some off =>
  match el.lookup "text" with
  | none => (.error (.keyError "text"), st')
  | some tx =>
  match getAttrib el "origId" opts st' with
  | (.error e, st'') => (.error e, st'')
  | (.ok oid, st'') =>
    let nc := getNormalization el
    match parseOffset off with
    | .error e => (.error e, st'')
    | .ok (a, b) =>
      (.ok { id := id_, type_ := ty, offset := off, start := a, end_ := b,
             text := tx, orig_id := oid, norm_id := nc.1,
             norm_conf := nc.2, uid := none, norm_uid := none }, st'')

/-! ### Sentence assembly -/

/-- The entity loop of `Sentence.from_xml`: a per-entity failure is
dropped (with an error log) when recovery is enabled, and otherwise
raises `FormatError('in sentence <id>')`. -/
def parseEntities (opts : Options) (sid : String) :
    List Element → PyState → Except PyErr (List Entity) × PyState
  | [], st => (.ok [], st)
  | el :: rest, st =>
    match entityFromXml opts el st with
    | (.ok ent, st') =>
      match parseEntities opts sid rest st' with
      | (.ok es, st'') => (.ok (ent :: es), st'')
      | (.error e, st'') => (.error e, st'')
    | (.error _, st') =>
      if opts.recover then parseEntities opts sid rest st'
      else (.error (.formatError ("in sentence " ++ sid)), st')

/-- The token loop: every failure raises
`FormatError('in sentence <id>')`, recovery mode notwithstanding. -/
def parseTokenList (opts : Options) (sid : String) :
    List Element → Except PyErr (List Token)
  | [] => .ok []
  | el :: rest =>
    match tokenFromXml opts el with
    | .ok t =>
      match parseTokenList opts sid rest with
      | .ok ts => .ok (t :: ts)
      | .error e => .error e
    | .error _ => .error (.formatError ("in sentence " ++ sid))

/-- The dependency loop: every failure raises
`FormatError('in sentence <id>')`. -/
def parseDependencyList (opts : Options) (sid : String) :
    List Element → Except PyErr (List Dependency)
  | [] => .ok []
  | el :: rest =>
    match dependencyFromXml opts el with
    | .ok d =>
      match parseDependencyList opts sid rest with
      | .ok ds => .ok (d :: ds)
      | .error e => .error e
    | .error _ => .error (.formatError ("in sentence " ++ sid))

/-- The phrase loop: parse, then derive the text from the sentence text;
every failure raises `FormatError('in sentence <id>')`. -/
def parsePhraseList (opts : Options) (sid stext : String) :
    List Element → Except PyErr (List Phrase)
  | [] => .ok []
  | el :: rest =>
    match phraseFromXml opts el with
    | .ok p =>
      match parsePhraseList opts sid stext rest with
      | .ok ps => .ok (p.assign_text stext :: ps)
      | .error e => .error e
    | .error _ => .error (.formatError ("in sentence " ++ sid))

/-- The `parse` sub-loop of one `analyses` element: dependencies (only
when tokens are requested) then phrases (only when requested). -/
def parseParses (opts : Options) (sid stext : String) :
    List Element → Except PyErr (List Dependency × List Phrase)
  | [] => .ok ([], [])
  | p :: rest =>
    match (if opts.no_tokens then .ok [] else
           parseDependencyList opts sid (p.findall "dependency")) with
    | .error e => .error e
    | .ok ds1 =>
      match (if opts.phrases then
             parsePhraseList opts sid stext (p.findall "phrase")
             else .ok []) with
      | .error e => .error e
      | .ok ps1 =>
        match parseParses opts sid stext rest with
        | .error e => .error e
        | .ok (ds, ps) => .ok (ds1 ++ ds, ps1 ++ ps)

/-- The token elements reachable from one `analyses` element:
`tokenization` children, then their `token` children, in order. -/
def tokenElems (ana : Element) : List Element :=
  (ana.findall "tokenization").flatMap (fun tz => tz.findall "token")

/-- The `analyses` loop of `Sentence.from_xml`: per `analyses` element,
tokens of its tokenizations (when requested), then its `parse` children
(dependencies and phrases). -/
def parseAnalysesList (opts : Options) (sid stext : String) :
    List Element → Except PyErr (List Token × List Dependency × List Phrase)
  | [] => .ok ([], [], [])
  | a :: rest =>
    match (if opts.no_tokens then .ok [] else
           parseTokenList opts sid (tokenElems a)) with
    | .error e => .error e
    | .ok ts1 =>
      match parseParses opts sid stext (a.findall "parse") with
      | .error e => .error e
      | .ok (ds1, ps1) =>
        match parseAnalysesList opts sid stext rest with
        | .error e => .error e
        | .ok (ts, ds, ps) => .ok (ts1 ++ ts, ds1 ++ ds, ps1 ++ ps)

/-- `Sentence.from_xml` followed by `Sentence.__init__`: required
attributes `id`, `text`, `charOffset`; entity loop (recovery-aware), then
analyses loops; finally the constructor parses the offset field (a
failure there propagates unwrapped). -/
def sentenceFromXml (opts : Options) (el : Element) (st : PyState) :
    Except PyErr Sentence × PyState :=
  match el.lookup "id" with
  | none => (.error (.keyError "id"), st)
  | some sid =>
  match el.lookup "text" with
  | none => (.error (.keyError "text"), st)
  | some stext =>
  match el.lookup "charOffset" with
  | none => (.error (.keyError "charOffset"), st)
  | some off =>
  match parseEntities opts sid (el.findall "evex_entity") st with
  | (.error e, st') => (.error e, st')
  | (.ok ents, st') =>
    match parseAnalysesList opts sid stext (el.findall "analyses") with
    | .error e => (.error e, st')
    | .ok (toks, deps, phs) =>
      match parseOffset off with
      | .error e => (.error e, st')
      | .ok (a, b) =>
        (.ok { id := sid, text := stext, offset := off, start := a,
               end_ := b, entities := ents, tokens := toks,
               phrases := phs, dependencies := deps }, st')

/-! ### Token index, head finding, dependency serialization -/

/-- `self.token_by_id = { t.id: t for t in self.tokens }` — on duplicate
source ids the later token wins, hence the reversed search. -/
def Sentence.token_by_id (s : Sentence) (i : String) : Option Token :=
  s.tokens.reverse.find? (fun t => t.id == i)

/-- `Sentence.get_token_uid(id)`: `self.token_by_id.get(id_).uid`; a
missing id makes `.get` return `None` and the attribute access raise
`AttributeError`. -/
def Sentence.get_token_uid (s : Sentence) (i : String) :
    Except PyErr (Option String) :=
  match s.token_by_id i with
  | none => .error .attributeError
  | some t => .ok t.uid

/-- Python `<` on dynamically typed values: comparing an `int` with a
`str` raises `TypeError`. -/
def pyLtV : PyVal → PyVal → Except PyErr Bool
  | .int a, .int b => .ok (decide (a < b))
  | .str a, .str b => .ok (decide (a < b))
  | _, _ => .error .typeError

/-- Python `==` on dynamically typed values (mixed types are unequal). -/
def pyEqV : PyVal → PyVal → Bool
  | .int a, .int b => a == b
  | .str a, .str b => a == b
  | _, _ => false

/-- The comparison loop of Python `max` over a non-empty tail. -/
def pyMaxFold (acc : PyVal) : List PyVal → Except PyErr PyVal
  | [] => .ok acc
  | v :: rest =>
    match pyLtV acc v with
    | .error e => .error e
    | .ok b => pyMaxFold (if b then v else acc) rest

/-- Python `max` over a list (`ValueError` when empty; `TypeError` when a
comparison mixes `int` and `str`). -/
def pyMax : List PyVal → Except PyErr PyVal
  | [] => .error .valueError
  | v :: rest => pyMaxFold v rest

/-- `Sentence.find_head(start, end)`: filter the tokens overlapping the
span, take the maximum head score, and return the last token carrying
it. -/
def Sentence.find_head (s : Sentence) (a b : Int) : Except PyErr Token :=
  let spanned := s.tokens.filter (fun t => decide (t.start < b) && decide (a < t.end_))
  match pyMax (spanned.map (·.head_score)) with
  | .error e => .error e
  | .ok m =>
    match (spanned.filter (fun t => pyEqV t.head_score m)).getLast? with
    | some t => .ok t
    | none => .error .indexError

/-- Python string conversion of a possibly-`None` value. -/
def optStr : Option String → String
  | some s => s
  | none => "None"

/-- `Dependency.to_ann_lines`: one line
`<uid>\t<type> Arg1:<token_uid(start)> Arg2:<token_uid(end)>`; resolving
an endpoint through the owning sentence fails when the source-local token
id is absent from the index. -/
def Dependency.to_ann_lines (d : Dependency) (s : Sentence) :
    Except PyErr (List String) :=
  match s.get_token_uid d.start with
  | .error e => .error e
  | .ok su =>
    match s.get_token_uid d.end_ with
    | .error e => .error e
    | .ok eu =>
      .ok [optStr d.uid ++ "\t" ++ d.type_ ++ " Arg1:" ++ optStr su ++
           " Arg2:" ++ optStr eu]

/-! ### Identifier allocation

`assign_uids` with the `defaultdict(lambda: 1)` of next free indices made
an explicit function from kind tag to counter. -/

/-- The `next_free_idx` mapping: identifier-kind tag to next free
counter. -/
def Idx : Type := String → Nat

/-- A fresh `defaultdict(lambda: 1)`. -/
def idxFresh : Idx := fun _ => 1

/-- `next_free_idx[k] += 1`. -/
def idxBump (f : Idx) (k : String) : Idx :=
  fun k' => if k' = k then f k + 1 else f k'

/-- `Span.assign_uids` for a token: mint `T<n>`. -/
def Token.assign_uids (t : Token) (f : Idx) : Token × Idx :=
  ({ t with uid := some ("T" ++ Nat.repr (f "T")) }, idxBump f "T")

/-- `Span.assign_uids` for a phrase: mint `T<n>`. -/
def Phrase.assign_uids (p : Phrase) (f : Idx) : Phrase × Idx :=
  ({ p with uid := some ("T" ++ Nat.repr (f "T")) }, idxBump f "T")

/-- `Entity.assign_uids`: mint `T<n>`, then `N<m>` when a normalization
is present. -/
def Entity.assign_uids (e : Entity) (f : Idx) : Entity × Idx :=
  let e1 : Entity := { e with uid := some ("T" ++ Nat.repr (f "T")) }
  let f1 := idxBump f "T"
  match e.norm_id with
  | none => (e1, f1)
  | some _ =>
    ({ e1 with norm_uid := some ("N" ++ Nat.repr (f1 "N")) }, idxBump f1 "N")

/-- `Dependency.assign_uids`: mint `R<n>`. -/
def Dependency.assign_uids (d : Dependency) (f : Idx) : Dependency × Idx :=
  ({ d with uid := some ("R" ++ Nat.repr (f "R")) }, idxBump f "R")

/-- Run a per-element allocator over a list, threading the counters. -/
def assignList {α : Type} (g : α → Idx → α × Idx) :
    List α → Idx → List α × Idx
  | [], f => ([], f)
  | x :: rest, f =>
    let p := g x f
    let q := assignList g rest p.2
    (p.1 :: q.1, q.2)

/-- `Sentence.assign_uids`: visit tokens, phrases, entities, dependencies
in that order (the `chain` in the source). -/
def Sentence.assign_uids (s : Sentence) (f : Idx) : Sentence × Idx :=
  let pt := assignList Token.assign_uids s.tokens f
  let pp := assignList Phrase.assign_uids s.phrases pt.2
  let pe := assignList Entity.assign_uids s.entities pp.2
  let pd := assignList Dependency.assign_uids s.dependencies pe.2
  ({ s with tokens := pt.1, phrases := pp.1, entities := pe.1,
            dependencies := pd.1 }, pd.2)

/-- `Document.assign_uids()`: a fresh `defaultdict(lambda: 1)` driven over
the sentences in source order. -/
def Document.assign_uids (d : Document) : Document :=
  { d with sentences := (assignList Sentence.assign_uids d.sentences idxFresh).1 }

/-! ### Document assembly -/

/-- The sentence loop of `Document.from_xml`: a failing sentence is
logged and skipped when recovery is enabled, and otherwise raises
`FormatError('in document <id>')`. -/
def parseSentences (opts : Options) (did : String) :
    List Element → PyState → Except PyErr (List Sentence) × PyState
  | [], st => (.ok [], st)
  | el :: rest, st =>
    match sentenceFromXml opts el st with
    | (.ok s, st') =>
      match parseSentences opts did rest st' with
      | (.ok ss, st'') => (.ok (s :: ss), st'')
      | (.error e, st'') => (.error e, st'')
    | (.error _, st') =>
      if opts.recover then parseSentences opts did rest st'
      else (.error (.formatError ("in document " ++ did)), st')

/-- `Document.__init__`: attach the sentences and immediately run one
identifier-allocation pass over the whole tree. -/
def documentInit (id_ orig_id text : String) (ss : List Sentence) : Document :=
  Document.assign_uids
    { id := id_, orig_id := orig_id, text := text, sentences := ss }

/-- `Document.from_xml`: required attributes `id`, `origId`, `text`
(plain dictionary access), then the recovery-aware sentence loop, then
construction (which allocates identifiers). -/
def documentFromXml (opts : Options) (el : Element) (st : PyState) :
    Except PyErr Document × PyState :=
  match el.lookup "id" with
  | none => (.error (.keyError "id"), st)
  | some did =>
  match el.lookup "origId" with
  | none => (.error (.keyError "origId"), st)
  | some oid =>
  match el.lookup "text" with
  | none => (.error (.keyError "text"), st)
  | some dtext =>
  match parseSentences opts did (el.findall "sentence") st with
  | (.error e, st') => (.error e, st')
  | (.ok ss, st') => (.ok (documentInit did oid dtext ss), st')

/-! ### Observations used by the theorems -/

/-- The span uids of one sentence in allocation order
(tokens, phrases, entities). -/
def Sentence.spanUids (s : Sentence) : List (Option String) :=
  s.tokens.map (·.uid) ++ s.phrases.map (·.uid) ++ s.entities.map (·.uid)

/-- Number of spans (tokens, phrases, entities) in one sentence. -/
def Sentence.spanCount (s : Sentence) : Nat :=
  s.tokens.length + s.phrases.length + s.entities.length

/-- The span uids of a document in allocation order. -/
def Document.spanUids (d : Document) : List (Option String) :=
  (d.sentences.map Sentence.spanUids).flatten

/-- Number of spans in a document. -/
def Document.spanCount (d : Document) : Nat :=
  (d.sentences.map Sentence.spanCount).sum

/-- The dependency uids of a document in allocation order. -/
def Document.depUids (d : Document) : List (Option String) :=
  (d.sentences.map (fun s => s.dependencies.map (·.uid))).flatten

/-- Number of dependencies in a document. -/
def Document.depCount (d : Document) : Nat :=
  (d.sentences.map (fun s => s.dependencies.length)).sum

/-- Number of entities carrying a normalization (each mints an `N` uid). -/
def countNorms (es : List Entity) : Nat :=
  es.countP (fun e => e.norm_id.isSome)

/-!
## Theorems

Helper lemmas first, then one theorem per specification claim.
-/

theorem toDigitsCore_eq_natDigitsBE :
    ∀ (f n : Nat) (acc : List Char), n < f →
      Nat.toDigitsCore 10 f n acc = natDigitsBE n ++ acc := by
  intro f
  induction f with
  | zero => intro n acc h; omega
  | succ f ih =>
    intro n acc h
    rw [Nat.toDigitsCore]
    by_cases h10 : n < 10
    · have hq : n / 10 = 0 := Nat.div_eq_of_lt h10
      have hr : n % 10 = n := Nat.mod_eq_of_lt h10
      simp only [hq, hr, if_pos rfl]
      rw [natDigitsBE, dif_pos h10]
      rfl
    · have hq : n / 10 ≠ 0 := by
        intro hz
        have hdm := Nat.div_add_mod n 10
        have hm : n % 10 < 10 := Nat.mod_lt _ (by omega)
        omega
      simp only [if_neg hq]
      have hlt : n / 10 < f := by
        have h1 : n / 10 < n := Nat.div_lt_self (by omega) (by omega)
        omega
      rw [ih (n / 10) _ hlt]
      conv_rhs => rw [natDigitsBE, dif_neg h10]
      simp [List.append_assoc]

theorem natRepr_eq_natDigitsBE (n : Nat) :
    Nat.repr n = ⟨natDigitsBE n⟩ := by
  show (Nat.toDigits 10 n).asString = _
  rw [Nat.toDigits,
      toDigitsCore_eq_natDigitsBE (n + 1) n [] (Nat.lt_succ_self n),
      List.append_nil]
  rfl

theorem digitsVal_append_singleton (l : List Char) (c : Char) :
    digitsVal (l ++ [c]) = 10 * digitsVal l + (c.toNat - 48) := by
  simp [digitsVal, List.foldl_append]

theorem digitChar_toNat (d : Nat) (h : d < 10) :
    (Nat.digitChar d).toNat = 48 + d := by
  interval_cases d <;> rfl

theorem digitsVal_natDigitsBE (n : Nat) : digitsVal (natDigitsBE n) = n := by
  induction n using Nat.strong_induction_on with
  | _ n ih =>
    by_cases h : n < 10
    · rw [natDigitsBE, dif_pos h]
      simp [digitsVal, digitChar_toNat n h]
    · rw [natDigitsBE, dif_neg h, digitsVal_append_singleton,
          ih (n / 10) (Nat.div_lt_self (by omega) (by omega)),
          digitChar_toNat (n % 10) (Nat.mod_lt _ (by omega))]
      omega

theorem natDigitsBE_injective : Function.Injective natDigitsBE := by
  intro m n h
  have hm := digitsVal_natDigitsBE m
  rw [h, digitsVal_natDigitsBE] at hm
  omega

theorem natRepr_injective : Function.Injective Nat.repr := by
  intro m n h
  rw [natRepr_eq_natDigitsBE, natRepr_eq_natDigitsBE] at h
  exact natDigitsBE_injective (congrArg String.data h)

theorem string_append_left_cancel {p a b : String} (h : p ++ a = p ++ b) :
    a = b := by
  have hd : p.data ++ a.data = p.data ++ b.data := congrArg String.data h
  have hab : a.data = b.data := List.append_cancel_left hd
  cases a; cases b; cases hab; rfl

theorem prefixed_repr_injective (p : String) {m n : Nat} (h : m ≠ n) :
    p ++ Nat.repr m ≠ p ++ Nat.repr n := by
  intro he
  exact h (natRepr_injective (string_append_left_cancel he))

theorem cacheGet_bump_self (c : List (String × Nat)) (k : String) :
    cacheGet (cacheBump c k) k = cacheGet c k + 1 := by
  induction c with
  | nil => simp [cacheBump, cacheGet]
  | cons kv rest ih =>
    obtain ⟨k', v⟩ := kv
    by_cases h : k' = k
    · subst h; simp [cacheBump, cacheGet]
    · simp only [cacheBump, if_neg h, cacheGet]
      exact ih

/-! ### Offset-parsing lemmas -/

theorem splitChar_of_not_mem {sep : Char} :
    ∀ {l : List Char}, sep ∉ l → splitChar sep l = [l] := by
  intro l
  induction l with
  | nil => intro _; rfl
  | cons c rest ih =>
    intro h
    have hc : c ≠ sep := fun he => h (he ▸ List.mem_cons_self c rest)
    have hrest : sep ∉ rest := fun hm => h (List.mem_cons_of_mem c hm)
    rw [splitChar, if_neg hc, ih hrest]

theorem splitChar_append {sep : Char} :
    ∀ {l1 : List Char} (l2 : List Char), sep ∉ l1 →
      splitChar sep (l1 ++ sep :: l2) = l1 :: splitChar sep l2 := by
  intro l1
  induction l1 with
  | nil => intro l2 _; simp [splitChar]
  | cons c rest ih =>
    intro l2 h
    have hc : c ≠ sep := fun he => h (he ▸ List.mem_cons_self c rest)
    have hrest : sep ∉ rest := fun hm => h (List.mem_cons_of_mem c hm)
    rw [List.cons_append, splitChar, if_neg hc, ih l2 hrest]

theorem digit_not_whitespace {c : Char} (h : c.isDigit = true) :
    c.isWhitespace = false := by
  cases hcw : c.isWhitespace
  · rfl
  · exfalso
    have hd : ((c = ' ' ∨ c = '\t') ∨ c = '\r') ∨ c = '\n' := by
      have := hcw
      simp only [Char.isWhitespace, Bool.or_eq_true, decide_eq_true_eq]
        at this
      exact this
    have hd : c = ' ' ∨ c = '\t' ∨ c = '\r' ∨ c = '\n' := by tauto
    rcases hd with h1 | h1 | h1 | h1 <;> subst h1 <;>
      exact absurd h (by decide)

theorem digit_ne_plus {c : Char} (h : c.isDigit = true) : c ≠ '+' := by
  intro he; subst he; exact absurd h (by decide)

theorem digit_ne_minus {c : Char} (h : c.isDigit = true) : c ≠ '-' := by
  intro he; subst he; exact absurd h (by decide)

theorem dropWhile_ws_of_digits {l : List Char} (h : l.all Char.isDigit = true) :
    l.dropWhile Char.isWhitespace = l := by
  cases l with
  | nil => rfl
  | cons c rest =>
    have hc : c.isDigit = true := by
      have := (List.all_eq_true.mp h) c (List.mem_cons_self c rest)
      simpa using this
    rw [List.dropWhile_cons, digit_not_whitespace hc]
    simp

theorem stripChars_of_digits {l : List Char} (h : l.all Char.isDigit = true) :
    stripChars l = l := by
  unfold stripChars
  rw [dropWhile_ws_of_digits h]
  have hrev : l.reverse.all Char.isDigit = true := by
    simpa [List.all_eq_true] using fun c hc =>
      (List.all_eq_true.mp h) c (List.mem_reverse.mp hc)
  rw [dropWhile_ws_of_digits hrev, List.reverse_reverse]

theorem not_mem_minus_of_digits {l : List Char}
    (h : l.all Char.isDigit = true) : '-' ∉ l := by
  intro hm
  have := (List.all_eq_true.mp h) '-' hm
  simp at this

theorem pyInt?_of_digits {l : List Char} (hne : l ≠ [])
    (h : l.all Char.isDigit = true) :
    pyInt? l = some (Int.ofNat (digitsVal l)) := by
  cases l with
  | nil => exact absurd rfl hne
  | cons c rest =>
    have hc : c.isDigit = true := by
      have := (List.all_eq_true.mp h) c (List.mem_cons_self c rest)
      simpa using this
    rw [pyInt?]
    rw [stripChars_of_digits h]
    simp only [if_neg (digit_ne_plus hc), if_neg (digit_ne_minus hc), h,
      if_pos]
    rfl

/-- C6 supporting: successful parses satisfy the `start ≤ end` guard. -/
theorem parseOffset_ok_le {s : String} {a b : Int}
    (h : parseOffset s = .ok (a, b)) : a ≤ b := by
  unfold parseOffset at h
  split at h
  · split at h
    · split at h
      · rename_i x y hle
        simp only [Except.ok.injEq, Prod.mk.injEq] at h
        omega
      · simp at h
    · simp at h
  · simp at h

/-- C6. Offset parsing: for every offset string built from two integer
numerals `a`, `b` with `a ≤ b`, parsing yields `(a, b)`; a reversed
range, a non-integer part, or any other malformed shape fails. -/
theorem claim_C6_offset_parsing :
    (∀ d1 d2 : List Char, d1 ≠ [] → d2 ≠ [] →
        d1.all Char.isDigit = true → d2.all Char.isDigit = true →
        Int.ofNat (digitsVal d1) ≤ Int.ofNat (digitsVal d2) →
        parseOffset ⟨d1 ++ '-' :: d2⟩ =
          .ok (Int.ofNat (digitsVal d1), Int.ofNat (digitsVal d2)))
  ∧ (∀ d1 d2 : List Char, d1 ≠ [] → d2 ≠ [] →
        d1.all Char.isDigit = true → d2.all Char.isDigit = true →
        Int.ofNat (digitsVal d2) < Int.ofNat (digitsVal d1) →
        parseOffset ⟨d1 ++ '-' :: d2⟩ = .error .assertionError)
  ∧ (∀ (s : String) (s1 s2 : List Char),
        splitChar '-' s.data = [s1, s2] →
        pyInt? s1 = none ∨ pyInt? s2 = none →
        parseOffset s = .error .valueError)
  ∧ (∀ s : String, (¬ ∃ s1 s2, splitChar '-' s.data = [s1, s2]) →
        parseOffset s = .error .valueError)
  ∧ (∀ (s : String) (a b : Int), parseOffset s = .ok (a, b) → a ≤ b) := by
  refine ⟨?_, ?_, ?_, ?_, fun s a b h => parseOffset_ok_le h⟩
  · intro d1 d2 h1 h2 hd1 hd2 hle
    have hs : splitChar '-' (String.mk (d1 ++ '-' :: d2)).data = [d1, d2] := by
      show splitChar '-' (d1 ++ '-' :: d2) = [d1, d2]
      rw [splitChar_append d2 (not_mem_minus_of_digits hd1),
          splitChar_of_not_mem (not_mem_minus_of_digits hd2)]
    unfold parseOffset
    rw [hs]
    simp only [pyInt?_of_digits h1 hd1, pyInt?_of_digits h2 hd2]
    rw [if_pos hle]
  · intro d1 d2 h1 h2 hd1 hd2 hlt
    have hs : splitChar '-' (String.mk (d1 ++ '-' :: d2)).data = [d1, d2] := by
      show splitChar '-' (d1 ++ '-' :: d2) = [d1, d2]
      rw [splitChar_append d2 (not_mem_minus_of_digits hd1),
          splitChar_of_not_mem (not_mem_minus_of_digits hd2)]
    unfold parseOffset
    rw [hs]
    simp only [pyInt?_of_digits h1 hd1, pyInt?_of_digits h2 hd2]
    rw [if_neg (not_le.mpr hlt)]
  · intro s s1 s2 hsplit hnone
    unfold parseOffset
    rw [hsplit]
    show (match pyInt? s1, pyInt? s2 with
      | some x, some y =>
        if x ≤ y then Except.ok (x, y) else Except.error PyErr.assertionError
      | _, _ => Except.error PyErr.valueError) = Except.error PyErr.valueError
    rcases hnone with h | h
    · rw [h]
    · rw [h]
      cases h1 : pyInt? s1 <;> rfl
  · intro s hno
    unfold parseOffset
    cases hs : splitChar '-' s.data with
    | nil => rfl
    | cons x xs =>
      cases xs with
      | nil => rfl
      | cons y ys =>
        cases ys with
        | nil => exact absurd ⟨x, y, hs⟩ hno
        | cons z zs => rfl

/-- C6 witness: the first part at the concrete numerals `4` and `7`. -/
theorem claim_C6_offset_parsing_witness :
    parseOffset ⟨['4'] ++ '-' :: ['7']⟩ =
      .ok (Int.ofNat (digitsVal ['4']), Int.ofNat (digitsVal ['7'])) :=
  claim_C6_offset_parsing.1 ['4'] ['7'] (by decide) (by decide) (by decide)
    (by decide) (by decide)

/-- C2. The normalization resolver on the four specified attribute sets:
a CHEBI CUI is passed through with its confidence, the zero gene-id and
`NA` CUI sentinels resolve to `(None, None)`, and an NCBI taxon id gets
the `NCBITaxon:` CURIE prefix. -/
theorem claim_C2_normalization_cases :
    getNormalization
        (.mk "evex_entity"
          [("norm_cui", "CHEBI:123"), ("norm_cui_conf", "0.9")] []) =
      (some "CHEBI:123", some "0.9")
  ∧ getNormalization
        (.mk "evex_entity"
          [("norm_entrezgene_id", "0"), ("norm_entrezgene_id_conf", "0.5")]
          []) = (none, none)
  ∧ getNormalization
        (.mk "evex_entity"
          [("norm_cui", "NA"), ("norm_cui_conf", "0.2")] []) = (none, none)
  ∧ getNormalization
        (.mk "evex_entity"
          [("norm_ncbitax_id", "9606"), ("norm_ncbitax_id_conf", "1.0")]
          []) = (some "NCBITaxon:9606", some "1.0") :=
  ⟨by decide, by decide, by decide, by decide⟩

/-- C3 counterexample: the Token parser reads its required attributes with
plain dictionary access, so with recovery enabled a token element missing
`POS` still fails with `KeyError` instead of continuing with a
placeholder. -/
theorem claim_C3_counterexample :
    tokenFromXml { recover := true }
      (.mk "token" [("id", "t1"), ("charOffset", "0-1"), ("text", "x")] []) =
    .error (.keyError "POS") := by decide

/-- C3 (amended). Only the Entity parser's `id` and `origId` go through
the recovering accessor `get_attrib`: with recovery disabled a missing
key is a fatal `KeyError`, with recovery enabled it is replaced by a
fresh, counter-backed `MISSING.<n>` placeholder (never an empty or zero
default) with a warning, and entity parsing continues.  Every other
required attribute of the Entity, Token, Dependency and Phrase parsers
raises `KeyError` on absence, recovery mode notwithstanding. -/
theorem claim_C3_required_field_recovery :
    (∀ (el : Element) (key : String) (opts : Options) (st : PyState),
        opts.recover = false → el.lookup key = none →
        getAttrib el key opts st = (.error (.keyError key), st))
  ∧ (∀ (el : Element) (key : String) (opts : Options) (st : PyState),
        opts.recover = true → el.lookup key = none →
        getAttrib el key opts st =
          (.ok ("MISSING." ++ Nat.repr (cacheGet st.cache "MISSING." + 1)),
           { cache := cacheBump st.cache "MISSING.",
             warnings := st.warnings ++
               ["recover: replace missing " ++ key ++ " in " ++ el.tag ++
                " with " ++
                ("MISSING." ++
                  Nat.repr (cacheGet st.cache "MISSING." + 1))] }))
  ∧ ((∀ m n : Nat, m ≠ n →
        "MISSING." ++ Nat.repr m ≠ "MISSING." ++ Nat.repr n)
     ∧ ∀ (c : List (String × Nat)) (k : String),
         cacheGet (cacheBump c k) k = cacheGet c k + 1)
  ∧ (∀ (opts : Options) (el : Element) (st : PyState) (i ty off tx : String)
        (a b : Int),
        opts.recover = true →
        el.lookup "id" = some i → el.lookup "entity_type" = some ty →
        el.lookup "charOffset" = some off → el.lookup "text" = some tx →
        el.lookup "origId" = none → parseOffset off = .ok (a, b) →
        ∃ st', entityFromXml opts el st =
          (.ok { id := i, type_ := ty, offset := off, start := a, end_ := b,
                 text := tx,
                 orig_id :=
                   "MISSING." ++ Nat.repr (cacheGet st.cache "MISSING." + 1),
                 norm_id := (getNormalization el).1,
                 norm_conf := (getNormalization el).2,
                 uid := none, norm_uid := none }, st'))
  ∧ (∀ (opts : Options) (el : Element) (st : PyState) (i ty off tx : String),
        opts.recover = false →
        el.lookup "id" = some i → el.lookup "entity_type" = some ty →
        el.lookup "charOffset" = some off → el.lookup "text" = some tx →
        el.lookup "origId" = none →
        entityFromXml opts el st = (.error (.keyError "origId"), st))
  ∧ (∀ (opts : Options) (el : Element),
        (el.lookup "id" = none ∨ el.lookup "POS" = none ∨
         el.lookup "charOffset" = none ∨ el.lookup "text" = none) →
        ∃ k, el.lookup k = none ∧ tokenFromXml opts el = .error (.keyError k))
  ∧ (∀ (opts : Options) (el : Element),
        (el.lookup "id" = none ∨ el.lookup "t1" = none ∨
         el.lookup "t2" = none ∨ el.lookup "type" = none) →
        ∃ k, el.lookup k = none ∧
          dependencyFromXml opts el = .error (.keyError k))
  ∧ (∀ (opts : Options) (el : Element),
        (el.lookup "id" = none ∨ el.lookup "type" = none ∨
         el.lookup "charOffset" = none) →
        ∃ k, el.lookup k = none ∧
          phraseFromXml opts el = .error (.keyError k))
  ∧ (∀ (opts : Options) (el : Element) (st : PyState),
        opts.recover = true → el.lookup "entity_type" = none →
        ∃ st', entityFromXml opts el st =
          (.error (.keyError "entity_type"), st')) := by
  refine ⟨?_, ?_, ⟨fun m n h => prefixed_repr_injective _ h,
    cacheGet_bump_self⟩, ?_, ?_, ?_, ?_, ?_, ?_⟩
  · intro el key opts st hrec hnone
    simp [getAttrib, hnone, hrec]
  · intro el key opts st hrec hnone
    simp [getAttrib, hnone, hrec, generateUnique]
  · intro opts el st i ty off tx a b hrec hid hty hoff htx horig hparse
    simp only [entityFromXml, getAttrib, hid, hty, hoff, htx, horig, hrec,
      if_true, generateUnique, hparse]
    exact ⟨_, rfl⟩
  · intro opts el st i ty off tx hrec hid hty hoff htx horig
    simp only [entityFromXml, getAttrib, hid, hty, hoff, htx, horig, hrec,
      Bool.false_eq_true, if_false]
  · intro opts el hmiss
    cases hid : el.lookup "id" with
    | none => exact ⟨"id", hid, by simp [tokenFromXml, hid]⟩
    | some i =>
      cases hpos : el.lookup "POS" with
      | none => exact ⟨"POS", hpos, by simp [tokenFromXml, hid, hpos]⟩
      | some p =>
        cases hoff : el.lookup "charOffset" with
        | none =>
          exact ⟨"charOffset", hoff,
            by simp [tokenFromXml, hid, hpos, hoff]⟩
        | some o =>
          cases htx : el.lookup "text" with
          | none =>
            exact ⟨"text", htx,
              by simp [tokenFromXml, hid, hpos, hoff, htx]⟩
          | some t => rcases hmiss with h | h | h | h <;> simp_all
  · intro opts el hmiss
    cases hid : el.lookup "id" with
    | none => exact ⟨"id", hid, by simp [dependencyFromXml, hid]⟩
    | some i =>
      cases h1 : el.lookup "t1" with
      | none => exact ⟨"t1", h1, by simp [dependencyFromXml, hid, h1]⟩
      | some v1 =>
        cases h2 : el.lookup "t2" with
        | none => exact ⟨"t2", h2, by simp [dependencyFromXml, hid, h1, h2]⟩
        | some v2 =>
          cases hty : el.lookup "type" with
          | none =>
            exact ⟨"type", hty,
              by simp [dependencyFromXml, hid, h1, h2, hty]⟩
          | some ty => rcases hmiss with h | h | h | h <;> simp_all
  · intro opts el hmiss
    cases hid : el.lookup "id" with
    | none => exact ⟨"id", hid, by simp [phraseFromXml, hid]⟩
    | some i =>
      cases hty : el.lookup "type" with
      | none => exact ⟨"type", hty, by simp [phraseFromXml, hid, hty]⟩
      | some ty =>
        cases hoff : el.lookup "charOffset" with
        | none =>
          exact ⟨"charOffset", hoff, by simp [phraseFromXml, hid, hty, hoff]⟩
        | some o => rcases hmiss with h | h | h <;> simp_all
  · intro opts el st hrec hty
    cases hid : el.lookup "id" with
    | none =>
      simp only [entityFromXml, getAttrib, hid, hty, hrec, if_true,
        generateUnique]
      exact ⟨_, rfl⟩
    | some i =>
      simp only [entityFromXml, getAttrib, hid, hty]
      exact ⟨_, rfl⟩

/-- C3 witness: the amended recovery path at a concrete entity element
missing only `origId`. -/
theorem claim_C3_required_field_recovery_witness :
    ∃ st', entityFromXml { recover := true }
        (.mk "evex_entity"
          [("id", "e1"), ("entity_type", "ggp"), ("charOffset", "4-7"),
           ("text", "cat")] []) {} =
      (.ok { id := "e1", type_ := "ggp", offset := "4-7", start := 4,
             end_ := 7, text := "cat",
             orig_id := "MISSING." ++
               Nat.repr (cacheGet ({} : PyState).cache "MISSING." + 1),
             norm_id :=
               (getNormalization
                 (.mk "evex_entity"
                   [("id", "e1"), ("entity_type", "ggp"),
                    ("charOffset", "4-7"), ("text", "cat")] [])).1,
             norm_conf :=
               (getNormalization
                 (.mk "evex_entity"
                   [("id", "e1"), ("entity_type", "ggp"),
                    ("charOffset", "4-7"), ("text", "cat")] [])).2,
             uid := none, norm_uid := none }, st') :=
  claim_C3_required_field_recovery.2.2.2.1 { recover := true }
    (.mk "evex_entity"
      [("id", "e1"), ("entity_type", "ggp"), ("charOffset", "4-7"),
       ("text", "cat")] []) {} "e1" "ggp" "4-7" "cat" 4 7 rfl (by decide)
    (by decide) (by decide) (by decide) (by decide) (by decide)

/-- C8: the head-finding failure.  For tokens A(start 0, end 4, headScore
absent, hence the integer sentinel −99) and B(start 2, end 6, headScore
"3" as parsed from XML, hence a string) over the span (2, 5), both
overlap; the claim expects B to win, but the code compares the integer
sentinel with the string score and raises `TypeError`. -/
theorem claim_C8_find_head_crashes_on_mixed_scores :
    Sentence.find_head
      { id := "s1", text := "", offset := "0-9", start := 0, end_ := 9,
        entities := [], phrases := [], dependencies := [],
        tokens :=
          [{ id := "t1", pos := "NN", offset := "0-4", start := 0,
             end_ := 4, text := "aa", head_score := .int (-99),
             type_ := "Token", uid := none },
           { id := "t2", pos := "NN", offset := "2-6", start := 2,
             end_ := 6, text := "bb", head_score := .str "3",
             type_ := "Token", uid := none }] } 2 5 =
      .error .typeError := by decide

/-- C9. Every parsed phrase gets the fixed `Phrase-` marker on its raw
type and its text is derived by slicing the sentence text at the
phrase's own offsets; concretely, slicing "The cat sat" at (4, 7) gives
"cat", also end-to-end through sentence assembly. -/
theorem claim_C9_phrase_type_and_text :
    (∀ (opts : Options) (el : Element) (i ty off : String) (a b : Int),
        el.lookup "id" = some i → el.lookup "type" = some ty →
        el.lookup "charOffset" = some off → parseOffset off = .ok (a, b) →
        phraseFromXml opts el =
          .ok { id := i, type_ := "Phrase-" ++ ty, offset := off, start := a,
                end_ := b, text := none, uid := none }
        ∧ ∀ stext : String,
            ({ id := i, type_ := "Phrase-" ++ ty, offset := off, start := a,
               end_ := b, text := none, uid := none } : Phrase).assign_text
                stext =
              { id := i, type_ := "Phrase-" ++ ty, offset := off, start := a,
                end_ := b, text := some (pySlice stext a b), uid := none })
  ∧ pySlice "The cat sat" 4 7 = "cat"
  ∧ ((sentenceFromXml { phrases := true }
        (.mk "sentence"
          [("id", "s1"), ("text", "The cat sat"), ("charOffset", "0-11")]
          [.mk "analyses" []
            [.mk "parse" []
              [.mk "phrase"
                [("id", "p1"), ("type", "NP"), ("charOffset", "4-7")]
                []]]])
        {}).1.map (fun s => s.phrases.map (fun p => (p.type_, p.text)))) =
      .ok [("Phrase-NP", some "cat")] := by
  refine ⟨?_, by decide, by decide⟩
  intro opts el i ty off a b hid hty hoff hparse
  constructor
  · simp [phraseFromXml, hid, hty, hoff, hparse]
  · intro stext
    simp [Phrase.assign_text]

/-- C9 witness: the general part at a concrete phrase element. -/
theorem claim_C9_phrase_type_and_text_witness :
    phraseFromXml {}
        (.mk "phrase" [("id", "p1"), ("type", "NP"), ("charOffset", "4-7")]
          []) =
      .ok { id := "p1", type_ := "Phrase-NP", offset := "4-7", start := 4,
            end_ := 7, text := none, uid := none } :=
  (claim_C9_phrase_type_and_text.1 {}
    (.mk "phrase" [("id", "p1"), ("type", "NP"), ("charOffset", "4-7")] [])
    "p1" "NP" "4-7" 4 7 rfl rfl rfl (by decide)).1

/-- C7. Dependency serialization: with resolvable endpoints the single
produced line is exactly
`uid<TAB>type Arg1:<token uid> Arg2:<token uid>`; a source-local token id
absent from the owning sentence's index makes serialization fail (the
`None.uid` attribute access). -/
theorem claim_C7_dependency_serialization :
    (∀ (d : Dependency) (s : Sentence) (u su eu : String),
        d.uid = some u →
        s.get_token_uid d.start = .ok (some su) →
        s.get_token_uid d.end_ = .ok (some eu) →
        d.to_ann_lines s =
          .ok [u ++ "\t" ++ d.type_ ++ " Arg1:" ++ su ++ " Arg2:" ++ eu])
  ∧ (∀ (d : Dependency) (s : Sentence),
        s.token_by_id d.start = none ∨ s.token_by_id d.end_ = none →
        d.to_ann_lines s = .error .attributeError) := by
  constructor
  · intro d s u su eu huid hsu heu
    simp [Dependency.to_ann_lines, hsu, heu, huid, optStr]
  · intro d s h
    rcases h with h | h
    · simp [Dependency.to_ann_lines, Sentence.get_token_uid, h]
    · cases hs : s.token_by_id d.start with
      | none => simp [Dependency.to_ann_lines, Sentence.get_token_uid, hs]
      | some t =>
        simp [Dependency.to_ann_lines, Sentence.get_token_uid, hs, h]

/-- C7 witness: both parts at a concrete two-token sentence, once with a
resolvable dependency and once with a dangling one. -/
theorem claim_C7_dependency_serialization_witness :
    Dependency.to_ann_lines
        { id := "d0", type_ := "det", start := "t1", end_ := "t2",
          uid := some "R1" }
        { id := "s1", text := "", offset := "0-7", start := 0, end_ := 7,
          entities := [], phrases := [], dependencies := [],
          tokens :=
            [{ id := "t1", pos := "DT", offset := "0-3", start := 0,
               end_ := 3, text := "The", head_score := .int (-99),
               type_ := "Token", uid := some "T1" },
             { id := "t2", pos := "NN", offset := "4-7", start := 4,
               end_ := 7, text := "cat", head_score := .int (-99),
               type_ := "Token", uid := some "T2" }] } =
      .ok ["R1" ++ "\t" ++ "det" ++ " Arg1:" ++ "T1" ++ " Arg2:" ++ "T2"]
  ∧ Dependency.to_ann_lines
        { id := "d1", type_ := "det", start := "tX", end_ := "t2",
          uid := some "R2" }
        { id := "s1", text := "", offset := "0-7", start := 0, end_ := 7,
          entities := [], phrases := [], dependencies := [], tokens := [] } =
      .error .attributeError :=
  ⟨claim_C7_dependency_serialization.1 _ _ "R1" "T1" "T2" rfl (by decide)
      (by decide),
   claim_C7_dependency_serialization.2 _ _ (Or.inl (by decide))⟩

/-! ### Error-isolation lemmas for sentence and document assembly -/

theorem parseTokenList_error_shape {opts : Options} {sid : String} :
    ∀ {els : List Element} {e : PyErr},
      parseTokenList opts sid els = .error e →
      e = .formatError ("in sentence " ++ sid) := by
  intro els
  induction els with
  | nil => intro e h; simp [parseTokenList] at h
  | cons el rest ih =>
    intro e h
    rw [parseTokenList] at h
    cases htok : tokenFromXml opts el with
    | error e' => rw [htok] at h; cases h; rfl
    | ok t =>
      rw [htok] at h
      cases hrest : parseTokenList opts sid rest with
      | error e' => rw [hrest] at h; cases h; exact ih hrest
      | ok ts => rw [hrest] at h; cases h

theorem parseTokenList_error_of_mem {opts : Options} {sid : String} :
    ∀ {els : List Element},
      (∃ t ∈ els, ∃ e, tokenFromXml opts t = .error e) →
      parseTokenList opts sid els = .error (.formatError ("in sentence " ++ sid)) := by
  intro els
  induction els with
  | nil => rintro ⟨t, ht, _⟩; simp at ht
  | cons el rest ih =>
    rintro ⟨t, ht, e, he⟩
    rw [parseTokenList]
    rcases List.mem_cons.mp ht with rfl | hmem
    · rw [he]
    · cases htok : tokenFromXml opts el with
      | error e' => rfl
      | ok tok => rw [ih ⟨t, hmem, e, he⟩]

theorem parseDependencyList_error_shape {opts : Options} {sid : String} :
    ∀ {els : List Element} {e : PyErr},
      parseDependencyList opts sid els = .error e →
      e = .formatError ("in sentence " ++ sid) := by
  intro els
  induction els with
  | nil => intro e h; simp [parseDependencyList] at h
  | cons el rest ih =>
    intro e h
    rw [parseDependencyList] at h
    cases hd : dependencyFromXml opts el with
    | error e' => rw [hd] at h; cases h; rfl
    | ok d =>
      rw [hd] at h
      cases hrest : parseDependencyList opts sid rest with
      | error e' => rw [hrest] at h; cases h; exact ih hrest
      | ok ds => rw [hrest] at h; cases h

theorem parsePhraseList_error_shape {opts : Options} {sid stext : String} :
    ∀ {els : List Element} {e : PyErr},
      parsePhraseList opts sid stext els = .error e →
      e = .formatError ("in sentence " ++ sid) := by
  intro els
  induction els with
  | nil => intro e h; simp [parsePhraseList] at h
  | cons el rest ih =>
    intro e h
    rw [parsePhraseList] at h
    cases hp : phraseFromXml opts el with
    | error e' => rw [hp] at h; cases h; rfl
    | ok p =>
      rw [hp] at h
      cases hrest : parsePhraseList opts sid stext rest with
      | error e' => rw [hrest] at h; cases h; exact ih hrest
      | ok ps => rw [hrest] at h; cases h

theorem parseParses_error_shape {opts : Options} {sid stext : String} :
    ∀ {els : List Element} {e : PyErr},
      parseParses opts sid stext els = .error e →
      e = .formatError ("in sentence " ++ sid) := by
  intro els
  induction els with
  | nil => intro e h; simp [parseParses] at h
  | cons p rest ih =>
    intro e h
    rw [parseParses] at h
    cases hd : (if opts.no_tokens then .ok [] else
        parseDependencyList opts sid (p.findall "dependency")) with
    | error e' =>
      rw [hd] at h; cases h
      by_cases hnt : opts.no_tokens
      · rw [if_pos hnt] at hd; cases hd
      · rw [if_neg hnt] at hd; exact parseDependencyList_error_shape hd
    | ok ds1 =>
      rw [hd] at h
      cases hp : (if opts.phrases then
          parsePhraseList opts sid stext (p.findall "phrase") else .ok []) with
      | error e' =>
        rw [hp] at h; cases h
        by_cases hph : opts.phrases
        · rw [if_pos hph] at hp; exact parsePhraseList_error_shape hp
        · rw [if_neg hph] at hp; cases hp
      | ok ps1 =>
        rw [hp] at h
        cases hrest : parseParses opts sid stext rest with
        | error e' => rw [hrest] at h; cases h; exact ih hrest
        | ok pr => rw [hrest] at h; cases h

theorem parseAnalysesList_error_shape {opts : Options} {sid stext : String} :
    ∀ {els : List Element} {e : PyErr},
      parseAnalysesList opts sid stext els = .error e →
      e = .formatError ("in sentence " ++ sid) := by
  intro els
  induction els with
  | nil => intro e h; simp [parseAnalysesList] at h
  | cons a rest ih =>
    intro e h
    rw [parseAnalysesList] at h
    cases ht : (if opts.no_tokens then .ok [] else
        parseTokenList opts sid (tokenElems a)) with
    | error e' =>
      rw [ht] at h; cases h
      by_cases hnt : opts.no_tokens
      · rw [if_pos hnt] at ht; cases ht
      · rw [if_neg hnt] at ht; exact parseTokenList_error_shape ht
    | ok ts1 =>
      rw [ht] at h
      cases hp : parseParses opts sid stext (a.findall "parse") with
      | error e' => rw [hp] at h; cases h; exact parseParses_error_shape hp
      | ok pr =>
        rw [hp] at h
        cases hrest : parseAnalysesList opts sid stext rest with
        | error e' => rw [hrest] at h; cases h; exact ih hrest
        | ok r => rw [hrest] at h; cases h

theorem parseAnalysesList_error_of_token_mem {opts : Options}
    {sid stext : String} (hnt : opts.no_tokens = false) :
    ∀ {els : List Element},
      (∃ a ∈ els, ∃ t ∈ tokenElems a, ∃ e, tokenFromXml opts t = .error e) →
      parseAnalysesList opts sid stext els =
        .error (.formatError ("in sentence " ++ sid)) := by
  intro els
  induction els with
  | nil => rintro ⟨a, ha, _⟩; simp at ha
  | cons a rest ih =>
    rintro ⟨a', ha', hfail⟩
    rw [parseAnalysesList]
    rcases List.mem_cons.mp ha' with rfl | hmem
    · rw [if_neg (by simp [hnt]), parseTokenList_error_of_mem hfail]
    · cases ht : (if opts.no_tokens then .ok [] else
          parseTokenList opts sid (tokenElems a)) with
      | error e' =>
        by_cases hnt' : opts.no_tokens
        · rw [if_pos hnt'] at ht; cases ht
        · rw [if_neg hnt'] at ht
          rw [parseTokenList_error_shape ht]
      | ok ts1 =>
        cases hp : parseParses opts sid stext (a.findall "parse") with
        | error e' => rw [parseParses_error_shape hp]
        | ok pr => rw [ih ⟨a', hmem, hfail⟩]

theorem parseEntities_cons_ok {opts : Options} {sid : String} {el : Element}
    {rest : List Element} {st st1 : PyState} {ent : Entity}
    (hent : entityFromXml opts el st = (.ok ent, st1)) :
    parseEntities opts sid (el :: rest) st =
      (match parseEntities opts sid rest st1 with
       | (.ok es, st2) => (.ok (ent :: es), st2)
       | (.error e, st2) => (.error e, st2)) := by
  rw [parseEntities, hent]

theorem parseEntities_cons_err {opts : Options} {sid : String} {el : Element}
    {rest : List Element} {st st1 : PyState} {e : PyErr}
    (hent : entityFromXml opts el st = (.error e, st1)) :
    parseEntities opts sid (el :: rest) st =
      (if opts.recover = true then parseEntities opts sid rest st1
       else (.error (.formatError ("in sentence " ++ sid)), st1)) := by
  rw [parseEntities, hent]

theorem parseEntities_error_shape {opts : Options} {sid : String} :
    ∀ {els : List Element} {st st' : PyState} {e : PyErr},
      parseEntities opts sid els st = (.error e, st') →
      e = .formatError ("in sentence " ++ sid) := by
  intro els
  induction els with
  | nil => intro st st' e h; simp [parseEntities] at h
  | cons el rest ih =>
    intro st st' e h
    rw [parseEntities] at h
    split at h
    · split at h
      · cases h
      · rename_i e2 st2 heq2
        cases h
        exact ih heq2
    · split at h
      · exact ih h
      · cases h; rfl

theorem parseEntities_recover_ok {opts : Options} {sid : String}
    (hrec : opts.recover = true) :
    ∀ (els : List Element) (st : PyState),
      ∃ es st', parseEntities opts sid els st = (.ok es, st') := by
  intro els
  induction els with
  | nil => intro st; exact ⟨[], st, rfl⟩
  | cons el rest ih =>
    intro st
    cases hent : entityFromXml opts el st with
    | mk r st1 =>
      cases r with
      | error e' =>
        rw [parseEntities_cons_err hent, if_pos hrec]
        exact ih st1
      | ok ent =>
        obtain ⟨es, st2, hrest⟩ := ih st1
        rw [parseEntities_cons_ok hent, hrest]
        exact ⟨ent :: es, st2, rfl⟩

/-- C4. With tokens requested, a token element that fails to parse is
fatal to the sentence whatever the recovery mode: once the required
sentence attributes are read, assembly returns
`FormatError('in sentence <id>')`.  A failing entity with recovery
enabled is merely dropped: the entity phase never fails and continues
with the remaining elements. -/
theorem claim_C4_token_failure_fatal :
    (∀ (opts : Options) (el : Element) (st : PyState) (sid stext off : String),
        opts.no_tokens = false →
        el.lookup "id" = some sid → el.lookup "text" = some stext →
        el.lookup "charOffset" = some off →
        (∃ a ∈ el.findall "analyses", ∃ t ∈ tokenElems a, ∃ e,
            tokenFromXml opts t = .error e) →
        ∃ st', sentenceFromXml opts el st =
          (.error (.formatError ("in sentence " ++ sid)), st'))
  ∧ (∀ (opts : Options) (sid : String) (els : List Element) (st : PyState),
        opts.recover = true →
        ∃ es st', parseEntities opts sid els st = (.ok es, st'))
  ∧ (∀ (opts : Options) (sid : String) (el : Element) (els : List Element)
        (st st' : PyState) (e : PyErr),
        opts.recover = true → entityFromXml opts el st = (.error e, st') →
        parseEntities opts sid (el :: els) st =
          parseEntities opts sid els st') := by
  refine ⟨?_, fun opts sid els st hrec => parseEntities_recover_ok hrec els st,
    ?_⟩
  · intro opts el st sid stext off hnt hid htx hoff hfail
    unfold sentenceFromXml
    simp only [hid, htx, hoff]
    cases hent : parseEntities opts sid (el.findall "evex_entity") st with
    | mk r st1 =>
      cases r with
      | error e =>
        have he := parseEntities_error_shape hent
        subst he
        simp only [hent]
        exact ⟨st1, rfl⟩
      | ok ents =>
        simp only [hent, parseAnalysesList_error_of_token_mem hnt hfail]
        exact ⟨st1, rfl⟩
  · intro opts sid el els st st' e hrec hfail
    rw [parseEntities_cons_err hfail, if_pos hrec]

/-- C4 witness: a concrete sentence element whose single token lacks
`POS`, with recovery enabled; and the entity phase at a concrete input. -/
theorem claim_C4_token_failure_fatal_witness :
    (∃ st', sentenceFromXml { recover := true }
        (.mk "sentence"
          [("id", "s9"), ("text", "ab"), ("charOffset", "0-2")]
          [.mk "analyses" []
            [.mk "tokenization" []
              [.mk "token" [("id", "t1"), ("charOffset", "0-1"),
                            ("text", "a")] []]]])
        {} = (.error (.formatError ("in sentence " ++ "s9")), st'))
  ∧ (∃ es st', parseEntities { recover := true } "s9" [] {} =
      (.ok es, st')) :=
  ⟨claim_C4_token_failure_fatal.1 { recover := true } _ {} "s9" "ab" "0-2"
      rfl rfl rfl rfl
      ⟨.mk "analyses" []
          [.mk "tokenization" []
            [.mk "token" [("id", "t1"), ("charOffset", "0-1"),
                          ("text", "a")] []]],
        .head _,
        .mk "token" [("id", "t1"), ("charOffset", "0-1"), ("text", "a")] [],
        .head _, .keyError "POS", by decide⟩,
   claim_C4_token_failure_fatal.2.1 { recover := true } "s9" [] {} rfl⟩

theorem parseSentences_cons_ok {opts : Options} {did : String} {el : Element}
    {rest : List Element} {st st1 : PyState} {s : Sentence}
    (hs : sentenceFromXml opts el st = (.ok s, st1)) :
    parseSentences opts did (el :: rest) st =
      (match parseSentences opts did rest st1 with
       | (.ok ss, st2) => (.ok (s :: ss), st2)
       | (.error e, st2) => (.error e, st2)) := by
  rw [parseSentences, hs]

theorem parseSentences_cons_err {opts : Options} {did : String} {el : Element}
    {rest : List Element} {st st1 : PyState} {e : PyErr}
    (hs : sentenceFromXml opts el st = (.error e, st1)) :
    parseSentences opts did (el :: rest) st =
      (if opts.recover = true then parseSentences opts did rest st1
       else (.error (.formatError ("in document " ++ did)), st1)) := by
  rw [parseSentences, hs]

theorem parseSentences_error_shape {opts : Options} {did : String} :
    ∀ {els : List Element} {st st' : PyState} {e : PyErr},
      parseSentences opts did els st = (.error e, st') →
      e = .formatError ("in document " ++ did) := by
  intro els
  induction els with
  | nil => intro st st' e h; simp [parseSentences] at h
  | cons el rest ih =>
    intro st st' e h
    rw [parseSentences] at h
    split at h
    · split at h
      · cases h
      · rename_i e2 st2 heq2
        cases h
        exact ih heq2
    · split at h
      · exact ih h
      · cases h; rfl

theorem parseSentences_recover_ok {opts : Options} {did : String}
    (hrec : opts.recover = true) :
    ∀ (els : List Element) (st : PyState),
      ∃ ss st', parseSentences opts did els st = (.ok ss, st') := by
  intro els
  induction els with
  | nil => intro st; exact ⟨[], st, rfl⟩
  | cons el rest ih =>
    intro st
    cases hs : sentenceFromXml opts el st with
    | mk r st1 =>
      cases r with
      | error e' =>
        rw [parseSentences_cons_err hs, if_pos hrec]
        exact ih st1
      | ok s =>
        obtain ⟨ss, st2, hrest⟩ := ih st1
        rw [parseSentences_cons_ok hs, hrest]
        exact ⟨s :: ss, st2, rfl⟩

/-- C5. Document assembly: with recovery disabled, a failing sentence
aborts the whole document with `FormatError('in document <id>')`; with
recovery enabled the failing sentence is skipped and the remaining
sentences are still assembled (the sentence loop always succeeds); and on
success the returned document is the raw sentence list with exactly one
`Document.assign_uids` pass applied (run by the constructor). -/
theorem claim_C5_document_error_isolation :
    (∀ (opts : Options) (did : String) (el : Element) (els : List Element)
        (st st' : PyState) (e : PyErr),
        opts.recover = false → sentenceFromXml opts el st = (.error e, st') →
        parseSentences opts did (el :: els) st =
          (.error (.formatError ("in document " ++ did)), st'))
  ∧ (∀ (opts : Options) (did : String) (el : Element) (els : List Element)
        (st st' : PyState) (e : PyErr),
        opts.recover = true → sentenceFromXml opts el st = (.error e, st') →
        parseSentences opts did (el :: els) st =
          parseSentences opts did els st')
  ∧ (∀ (opts : Options) (did : String) (els : List Element) (st : PyState),
        opts.recover = true →
        ∃ ss st', parseSentences opts did els st = (.ok ss, st'))
  ∧ (∀ (opts : Options) (did : String) (els : List Element)
        (st st' : PyState) (e : PyErr),
        parseSentences opts did els st = (.error e, st') →
        e = .formatError ("in document " ++ did))
  ∧ (∀ (opts : Options) (el : Element) (st st' : PyState)
        (did oid dtext : String) (ss : List Sentence),
        el.lookup "id" = some did → el.lookup "origId" = some oid →
        el.lookup "text" = some dtext →
        parseSentences opts did (el.findall "sentence") st = (.ok ss, st') →
        documentFromXml opts el st =
          (.ok (Document.assign_uids
            { id := did, orig_id := oid, text := dtext, sentences := ss }),
           st'))
  ∧ (∀ (opts : Options) (el : Element) (st st' : PyState)
        (did oid dtext : String) (e : PyErr),
        el.lookup "id" = some did → el.lookup "origId" = some oid →
        el.lookup "text" = some dtext →
        parseSentences opts did (el.findall "sentence") st =
          (.error e, st') →
        documentFromXml opts el st = (.error e, st')) := by
  refine ⟨?_, ?_, fun opts did els st hrec =>
    parseSentences_recover_ok hrec els st,
    fun _ _ _ _ _ _ h => parseSentences_error_shape h, ?_, ?_⟩
  · intro opts did el els st st' e hrec hfail
    rw [parseSentences_cons_err hfail, if_neg (by simp [hrec])]
  · intro opts did el els st st' e hrec hfail
    rw [parseSentences_cons_err hfail, if_pos hrec]
  · intro opts el st st' did oid dtext ss hid hoid htx hps
    unfold documentFromXml
    simp only [hid, hoid, htx, hps]
    rfl
  · intro opts el st st' did oid dtext e hid hoid htx hps
    unfold documentFromXml
    simp only [hid, hoid, htx, hps]

/-- C5 witness: a concrete document whose only sentence lacks `text`,
skipped under recovery; and the assembled-document equation at a concrete
input. -/
theorem claim_C5_document_error_isolation_witness :
    parseSentences { recover := true } "d9"
        [.mk "sentence" [("id", "s1"), ("charOffset", "0-2")] []] {} =
      parseSentences { recover := true } "d9" [] {}
  ∧ documentFromXml {} (.mk "document"
        [("id", "d9"), ("origId", "O9"), ("text", "ab")] []) {} =
      (.ok (Document.assign_uids
        { id := "d9", orig_id := "O9", text := "ab", sentences := [] }), {}) :=
  ⟨claim_C5_document_error_isolation.2.1 { recover := true } "d9" _ [] {} {}
      (.keyError "text") rfl (by decide),
   claim_C5_document_error_isolation.2.2.2.2.1 {} _ {} {} "d9" "O9" "ab" []
      rfl rfl rfl (by decide)⟩


theorem candidatesWith_perm {ns cs : List (String × String)}
    {o1 o2 : List String} (h : o1.Perm o2) :
    (candidatesWith o1 ns cs).Perm (candidatesWith o2 ns cs) := by
  unfold candidatesWith
  exact h.filterMap _

theorem candidatesWith_mem {ns cs : List (String × String)}
    {o : List String} {k n c : String}
    (h : (k, n, c) ∈ candidatesWith o ns cs) :
    lookupA ns k = some n ∧ lookupA cs k = some c ∧
      ¬((k = "entrezgene_id" ∧ n = "0") ∨ (k = "cui" ∧ n = "NA")) := by
  unfold candidatesWith at h
  obtain ⟨a, _, hf⟩ := List.mem_filterMap.mp h
  cases hn : lookupA ns a with
  | none => rw [hn] at hf; cases hc' : lookupA cs a <;> rw [hc'] at hf <;>
      cases hf
  | some n' =>
    cases hc' : lookupA cs a with
    | none => rw [hn, hc'] at hf; cases hf
    | some c' =>
      simp only [hn, hc'] at hf
      by_cases hs : (a = "entrezgene_id" ∧ n' = "0") ∨ (a = "cui" ∧ n' = "NA")
      · rw [if_pos hs] at hf; cases hf
      · rw [if_neg hs] at hf
        cases hf
        exact ⟨hn, hc', hs⟩

/-- C10. When at most one normalization candidate survives pairing and
the empty-sentinel filters, the resolver's result does not depend on the
iteration order of the key set: any two enumerations of the keys give the
same `(cross-reference, confidence)` pair, which is either `(None, None)`
or has both components present, the confidence being the paired `_conf`
attribute value verbatim. -/
theorem claim_C10_normalization_order_independence :
    ∀ (el : Element) (o1 o2 : List String),
      o1.Perm (normKeyOrder el) → o2.Perm (normKeyOrder el) →
      (candidatesWith (normKeyOrder el) (gatherNormConfs el.attrib).1
          (gatherNormConfs el.attrib).2).length ≤ 1 →
      getNormalizationWith o1 el = getNormalizationWith o2 el
      ∧ (getNormalizationWith o1 el = (none, none)
         ∨ ∃ k n c,
             lookupA (gatherNormConfs el.attrib).1 k = some n
             ∧ lookupA (gatherNormConfs el.attrib).2 k = some c
             ∧ ¬((k = "entrezgene_id" ∧ n = "0") ∨ (k = "cui" ∧ n = "NA"))
             ∧ getNormalizationWith o1 el =
                 (some (getNormCurie k n), some c)) := by
  intro el o1 o2 h1 h2 hlen
  have p1 := @candidatesWith_perm (gatherNormConfs el.attrib).1
    (gatherNormConfs el.attrib).2 o1 (normKeyOrder el) h1
  have p2 := @candidatesWith_perm (gatherNormConfs el.attrib).1
    (gatherNormConfs el.attrib).2 o2 (normKeyOrder el) h2
  cases hc : candidatesWith (normKeyOrder el) (gatherNormConfs el.attrib).1
      (gatherNormConfs el.attrib).2 with
  | nil =>
    rw [hc] at p1 p2
    have e1 := p1.eq_nil
    have e2 := p2.eq_nil
    constructor
    · simp only [getNormalizationWith]
      rw [e1, e2]
    · left
      simp only [getNormalizationWith]
      rw [e1]
  | cons x rest =>
    cases rest with
    | cons y t => rw [hc] at hlen; simp at hlen
    | nil =>
      rw [hc] at p1 p2
      have e1 := List.perm_singleton.mp p1
      have e2 := List.perm_singleton.mp p2
      obtain ⟨k, n, c⟩ := x
      have hmem : (k, n, c) ∈ candidatesWith (normKeyOrder el)
          (gatherNormConfs el.attrib).1 (gatherNormConfs el.attrib).2 := by
        rw [hc]; exact .head _
      obtain ⟨hn, hcf, hsent⟩ := candidatesWith_mem hmem
      constructor
      · simp only [getNormalizationWith]
        rw [e1, e2]
      · right
        refine ⟨k, n, c, hn, hcf, hsent, ?_⟩
        simp only [getNormalizationWith]
        rw [e1]

/-- C10 witness: the identity enumeration at the concrete CHEBI entity. -/
theorem claim_C10_normalization_order_independence_witness :
    getNormalizationWith ["cui"]
        (.mk "evex_entity"
          [("norm_cui", "CHEBI:123"), ("norm_cui_conf", "0.9")] []) =
      (none, none)
    ∨ ∃ k n c,
        lookupA (gatherNormConfs (Element.mk "evex_entity"
          [("norm_cui", "CHEBI:123"), ("norm_cui_conf", "0.9")] []).attrib).1
            k = some n
        ∧ lookupA (gatherNormConfs (Element.mk "evex_entity"
            [("norm_cui", "CHEBI:123"), ("norm_cui_conf", "0.9")] []).attrib).2
            k = some c
        ∧ ¬((k = "entrezgene_id" ∧ n = "0") ∨ (k = "cui" ∧ n = "NA"))
        ∧ getNormalizationWith ["cui"]
            (.mk "evex_entity"
              [("norm_cui", "CHEBI:123"), ("norm_cui_conf", "0.9")] []) =
          (some (getNormCurie k n), some c) :=
  (claim_C10_normalization_order_independence
    (.mk "evex_entity" [("norm_cui", "CHEBI:123"), ("norm_cui_conf", "0.9")]
      []) ["cui"] ["cui"] (by decide) (by decide) (by decide)).2


/-! ### Identifier-allocation lemmas -/

theorem idxBump_self (f : Idx) (k : String) : idxBump f k k = f k + 1 := by
  simp [idxBump]

theorem idxBump_ne (f : Idx) {k k' : String} (h : k' ≠ k) :
    idxBump f k k' = f k' := by
  simp [idxBump, h]

theorem assignList_token_spec : ∀ (ts : List Token) (f : Idx),
    ((assignList Token.assign_uids ts f).1.map (fun t => t.uid) =
      (List.range ts.length).map
        (fun i => some ("T" ++ Nat.repr (f "T" + i))))
  ∧ ((assignList Token.assign_uids ts f).2 =
      fun k => if k = "T" then f "T" + ts.length else f k) := by
  intro ts
  induction ts with
  | nil =>
    intro f
    refine ⟨by simp [assignList], ?_⟩
    funext k
    by_cases h : k = "T" <;> simp [assignList, h]
  | cons t rest ih =>
    intro f
    constructor
    · simp only [assignList, Token.assign_uids, List.map_cons,
        List.length_cons, List.range_succ_eq_map, List.map_map]
      rw [(ih (idxBump f "T")).1]
      refine List.cons_eq_cons.mpr ⟨by simp, ?_⟩
      refine List.map_congr_left ?_
      intro i _
      have hb : idxBump f "T" "T" + i = f "T" + (i + 1) := by
        rw [idxBump_self]; omega
      simp [Function.comp, hb, Nat.succ_eq_add_one]
    · funext k
      simp only [assignList, Token.assign_uids]
      rw [(ih (idxBump f "T")).2]
      by_cases h : k = "T"
      · subst h; simp [idxBump_self, List.length_cons]; omega
      · simp [h, idxBump_ne f h]

theorem assignList_phrase_spec : ∀ (ps : List Phrase) (f : Idx),
    ((assignList Phrase.assign_uids ps f).1.map (fun p => p.uid) =
      (List.range ps.length).map
        (fun i => some ("T" ++ Nat.repr (f "T" + i))))
  ∧ ((assignList Phrase.assign_uids ps f).2 =
      fun k => if k = "T" then f "T" + ps.length else f k) := by
  intro ps
  induction ps with
  | nil =>
    intro f
    refine ⟨by simp [assignList], ?_⟩
    funext k
    by_cases h : k = "T" <;> simp [assignList, h]
  | cons p rest ih =>
    intro f
    constructor
    · simp only [assignList, Phrase.assign_uids, List.map_cons,
        List.length_cons, List.range_succ_eq_map, List.map_map]
      rw [(ih (idxBump f "T")).1]
      refine List.cons_eq_cons.mpr ⟨by simp, ?_⟩
      refine List.map_congr_left ?_
      intro i _
      have hb : idxBump f "T" "T" + i = f "T" + (i + 1) := by
        rw [idxBump_self]; omega
      simp [Function.comp, hb, Nat.succ_eq_add_one]
    · funext k
      simp only [assignList, Phrase.assign_uids]
      rw [(ih (idxBump f "T")).2]
      by_cases h : k = "T"
      · subst h; simp [idxBump_self, List.length_cons]; omega
      · simp [h, idxBump_ne f h]

theorem assignList_dep_spec : ∀ (ds : List Dependency) (f : Idx),
    ((assignList Dependency.assign_uids ds f).1.map (fun d => d.uid) =
      (List.range ds.length).map
        (fun i => some ("R" ++ Nat.repr (f "R" + i))))
  ∧ ((assignList Dependency.assign_uids ds f).2 =
      fun k => if k = "R" then f "R" + ds.length else f k) := by
  intro ds
  induction ds with
  | nil =>
    intro f
    refine ⟨by simp [assignList], ?_⟩
    funext k
    by_cases h : k = "R" <;> simp [assignList, h]
  | cons d rest ih =>
    intro f
    constructor
    · simp only [assignList, Dependency.assign_uids, List.map_cons,
        List.length_cons, List.range_succ_eq_map, List.map_map]
      rw [(ih (idxBump f "R")).1]
      refine List.cons_eq_cons.mpr ⟨by simp, ?_⟩
      refine List.map_congr_left ?_
      intro i _
      have hb : idxBump f "R" "R" + i = f "R" + (i + 1) := by
        rw [idxBump_self]; omega
      simp [Function.comp, hb, Nat.succ_eq_add_one]
    · funext k
      simp only [assignList, Dependency.assign_uids]
      rw [(ih (idxBump f "R")).2]
      by_cases h : k = "R"
      · subst h; simp [idxBump_self, List.length_cons]; omega
      · simp [h, idxBump_ne f h]

theorem assignList_entity_spec : ∀ (es : List Entity) (f : Idx),
    ((assignList Entity.assign_uids es f).1.map (fun e => e.uid) =
      (List.range es.length).map
        (fun i => some ("T" ++ Nat.repr (f "T" + i))))
  ∧ ((assignList Entity.assign_uids es f).2 =
      fun k => if k = "T" then f "T" + es.length
        else if k = "N" then f "N" + countNorms es else f k) := by
  intro es
  induction es with
  | nil =>
    intro f
    refine ⟨by simp [assignList], ?_⟩
    funext k
    by_cases h1 : k = "T"
    · simp [assignList, h1]
    · by_cases h2 : k = "N" <;> simp [assignList, countNorms, h1, h2]
  | cons e rest ih =>
    intro f
    cases hn : e.norm_id with
    | none =>
      constructor
      · simp only [assignList, Entity.assign_uids, hn, List.map_cons,
          List.length_cons, List.range_succ_eq_map, List.map_map]
        rw [(ih (idxBump f "T")).1]
        refine List.cons_eq_cons.mpr ⟨by simp, ?_⟩
        refine List.map_congr_left ?_
        intro i _
        have hb : idxBump f "T" "T" + i = f "T" + (i + 1) := by
          rw [idxBump_self]; omega
        simp [Function.comp, hb, Nat.succ_eq_add_one]
      · funext k
        simp only [assignList, Entity.assign_uids, hn]
        rw [(ih (idxBump f "T")).2]
        have hcn : countNorms (e :: rest) = countNorms rest := by
          simp [countNorms, List.countP_cons, hn]
        by_cases h1 : k = "T"
        · subst h1; simp [idxBump_self, List.length_cons]; omega
        · by_cases h2 : k = "N"
          · subst h2; simp [h1, idxBump_ne f h1, hcn]
          · simp [h1, h2, idxBump_ne f h1]
    | some v =>
      have hTN : ("T" : String) ≠ "N" := by decide
      have hNT : ("N" : String) ≠ "T" := by decide
      constructor
      · simp only [assignList, Entity.assign_uids, hn, List.map_cons,
          List.length_cons, List.range_succ_eq_map, List.map_map]
        rw [(ih (idxBump (idxBump f "T") "N")).1]
        refine List.cons_eq_cons.mpr ⟨by simp, ?_⟩
        refine List.map_congr_left ?_
        intro i _
        have hb : idxBump (idxBump f "T") "N" "T" + i = f "T" + (i + 1) := by
          rw [idxBump_ne _ hTN, idxBump_self]; omega
        simp [Function.comp, hb, Nat.succ_eq_add_one]
      · funext k
        simp only [assignList, Entity.assign_uids, hn]
        rw [(ih (idxBump (idxBump f "T") "N")).2]
        have hcn : countNorms (e :: rest) = countNorms rest + 1 := by
          simp [countNorms, List.countP_cons, hn]
        by_cases h1 : k = "T"
        · subst h1
          simp [idxBump_ne _ hTN, idxBump_self, List.length_cons]
          omega
        · by_cases h2 : k = "N"
          · subst h2
            simp [h1, idxBump_self, idxBump_ne _ hNT, hcn]
            omega
          · simp [h1, h2, idxBump_ne _ (h2 : k ≠ "N"),
              idxBump_ne _ (h1 : k ≠ "T")]

theorem assignList_token_uids (ts : List Token) (f : Idx) :
    (assignList Token.assign_uids ts f).1.map (fun t => t.uid) =
      (List.range ts.length).map
        (fun i => some ("T" ++ Nat.repr (f "T" + i))) :=
  (assignList_token_spec ts f).1

theorem assignList_token_state (ts : List Token) (f : Idx) :
    (assignList Token.assign_uids ts f).2 =
      fun k => if k = "T" then f "T" + ts.length else f k :=
  (assignList_token_spec ts f).2

theorem assignList_phrase_uids (ps : List Phrase) (f : Idx) :
    (assignList Phrase.assign_uids ps f).1.map (fun p => p.uid) =
      (List.range ps.length).map
        (fun i => some ("T" ++ Nat.repr (f "T" + i))) :=
  (assignList_phrase_spec ps f).1

theorem assignList_phrase_state (ps : List Phrase) (f : Idx) :
    (assignList Phrase.assign_uids ps f).2 =
      fun k => if k = "T" then f "T" + ps.length else f k :=
  (assignList_phrase_spec ps f).2

theorem assignList_entity_uids (es : List Entity) (f : Idx) :
    (assignList Entity.assign_uids es f).1.map (fun e => e.uid) =
      (List.range es.length).map
        (fun i => some ("T" ++ Nat.repr (f "T" + i))) :=
  (assignList_entity_spec es f).1

theorem assignList_entity_state (es : List Entity) (f : Idx) :
    (assignList Entity.assign_uids es f).2 =
      fun k => if k = "T" then f "T" + es.length
        else if k = "N" then f "N" + countNorms es else f k :=
  (assignList_entity_spec es f).2

theorem assignList_dep_uids (ds : List Dependency) (f : Idx) :
    (assignList Dependency.assign_uids ds f).1.map (fun d => d.uid) =
      (List.range ds.length).map
        (fun i => some ("R" ++ Nat.repr (f "R" + i))) :=
  (assignList_dep_spec ds f).1

theorem assignList_dep_state (ds : List Dependency) (f : Idx) :
    (assignList Dependency.assign_uids ds f).2 =
      fun k => if k = "R" then f "R" + ds.length else f k :=
  (assignList_dep_spec ds f).2

theorem sentence_assign_spanUids (s : Sentence) (f : Idx) :
    (Sentence.assign_uids s f).1.spanUids =
      (List.range s.spanCount).map
        (fun i => some ("T" ++ Nat.repr (f "T" + i))) := by
  simp only [Sentence.assign_uids, Sentence.spanUids, Sentence.spanCount,
    assignList_token_state, assignList_phrase_state,
    assignList_token_uids, assignList_phrase_uids, assignList_entity_uids]
  simp only [List.range_add, List.map_append, List.map_map]
  congr 1
  · congr 1
    refine List.map_congr_left ?_
    intro i _
    simp only [Function.comp_apply, if_true]
    rw [show f "T" + s.tokens.length + i =
      f "T" + (s.tokens.length + i) from by omega]
  · refine List.map_congr_left ?_
    intro i _
    simp only [Function.comp_apply, if_true]
    rw [show f "T" + s.tokens.length + s.phrases.length + i =
      f "T" + (s.tokens.length + s.phrases.length + i) from by omega]

theorem sentence_assign_depUids (s : Sentence) (f : Idx) :
    (Sentence.assign_uids s f).1.dependencies.map (fun d => d.uid) =
      (List.range s.dependencies.length).map
        (fun i => some ("R" ++ Nat.repr (f "R" + i))) := by
  simp only [Sentence.assign_uids, assignList_token_state,
    assignList_phrase_state, assignList_entity_state, assignList_dep_uids]
  refine List.map_congr_left ?_
  intro i _
  simp

theorem sentence_assign_state (s : Sentence) (f : Idx) :
    (Sentence.assign_uids s f).2 =
      fun k => if k = "T" then f "T" + s.spanCount
        else if k = "R" then f "R" + s.dependencies.length
        else if k = "N" then f "N" + countNorms s.entities
        else f k := by
  funext k
  simp only [Sentence.assign_uids, assignList_token_state,
    assignList_phrase_state, assignList_entity_state, assignList_dep_state,
    Sentence.spanCount]
  by_cases h1 : k = "T"
  · subst h1; simp; omega
  · by_cases h2 : k = "R"
    · subst h2; simp
    · by_cases h3 : k = "N"
      · subst h3; simp
      · simp [h1, h2, h3]

theorem assignList_sentence_spec : ∀ (ss : List Sentence) (f : Idx),
    (((assignList Sentence.assign_uids ss f).1.map Sentence.spanUids).flatten =
       (List.range ((ss.map Sentence.spanCount).sum)).map
         (fun i => some ("T" ++ Nat.repr (f "T" + i))))
  ∧ (((assignList Sentence.assign_uids ss f).1.map
        (fun s => s.dependencies.map (fun d => d.uid))).flatten =
       (List.range ((ss.map (fun s => s.dependencies.length)).sum)).map
         (fun i => some ("R" ++ Nat.repr (f "R" + i))))
  ∧ ((assignList Sentence.assign_uids ss f).2 =
       fun k => if k = "T" then f "T" + (ss.map Sentence.spanCount).sum
         else if k = "R" then
           f "R" + (ss.map (fun s => s.dependencies.length)).sum
         else if k = "N" then
           f "N" + (ss.map (fun s => countNorms s.entities)).sum
         else f k) := by
  intro ss
  induction ss with
  | nil =>
    intro f
    refine ⟨by simp [assignList], by simp [assignList], ?_⟩
    funext k
    by_cases h1 : k = "T"
    · simp [assignList, h1]
    · by_cases h2 : k = "R"
      · simp [assignList, h1, h2]
      · by_cases h3 : k = "N" <;> simp [assignList, h1, h2, h3]
  | cons s rest ih =>
    intro f
    refine ⟨?_, ?_, ?_⟩
    · simp only [assignList, List.map_cons, List.flatten_cons,
        List.sum_cons, List.range_add, List.map_append,
        sentence_assign_spanUids, sentence_assign_state]
      rw [(ih _).1]
      congr 1
      rw [List.map_map]
      refine List.map_congr_left ?_
      intro i _
      simp only [Function.comp_apply, if_true]
      rw [show f "T" + s.spanCount + i = f "T" + (s.spanCount + i)
        from by omega]
    · simp only [assignList, List.map_cons, List.flatten_cons,
        List.sum_cons, List.range_add, List.map_append,
        sentence_assign_depUids, sentence_assign_state]
      rw [(ih _).2.1]
      congr 1
      rw [List.map_map]
      refine List.map_congr_left ?_
      intro i _
      simp only [Function.comp_apply, eq_false (by decide : ¬("R" : String) = "T"),
        eq_true (rfl : ("R" : String) = "R"), if_true, if_false]
      rw [show f "R" + s.dependencies.length + i =
        f "R" + (s.dependencies.length + i) from by omega]
    · funext k
      simp only [assignList, List.map_cons, List.sum_cons]
      rw [(ih _).2.2]
      simp only [sentence_assign_state]
      by_cases h1 : k = "T"
      · subst h1; simp; omega
      · by_cases h2 : k = "R"
        · subst h2; simp; omega
        · by_cases h3 : k = "N"
          · subst h3; simp; omega
          · simp [h1, h2, h3]

theorem token_assign_reassign (t : Token) (f0 f : Idx) :
    Token.assign_uids ((Token.assign_uids t f0).1) f =
      Token.assign_uids t f := by
  cases t; rfl

theorem phrase_assign_reassign (p : Phrase) (f0 f : Idx) :
    Phrase.assign_uids ((Phrase.assign_uids p f0).1) f =
      Phrase.assign_uids p f := by
  cases p; rfl

theorem dep_assign_reassign (d : Dependency) (f0 f : Idx) :
    Dependency.assign_uids ((Dependency.assign_uids d f0).1) f =
      Dependency.assign_uids d f := by
  cases d; rfl

theorem entity_assign_reassign (e : Entity) (f0 f : Idx) :
    Entity.assign_uids ((Entity.assign_uids e f0).1) f =
      Entity.assign_uids e f := by
  obtain ⟨i, ty, off, a, b, tx, oid, nid, ncf, u, nu⟩ := e
  cases nid <;> rfl

theorem assignList_reassign {α : Type} (g : α → Idx → α × Idx)
    (hg : ∀ (a : α) (f0 f : Idx), g ((g a f0).1) f = g a f) :
    ∀ (l : List α) (f0 f : Idx),
      assignList g ((assignList g l f0).1) f = assignList g l f := by
  intro l
  induction l with
  | nil => intro f0 f; rfl
  | cons a rest ih =>
    intro f0 f
    simp only [assignList]
    rw [hg a f0 f, ih (g a f0).2 (g a f).2]

theorem sentence_assign_reassign (s : Sentence) (f0 f : Idx) :
    Sentence.assign_uids ((Sentence.assign_uids s f0).1) f =
      Sentence.assign_uids s f := by
  obtain ⟨sid, stx, soff, sa, sb, es, ts, ps, ds⟩ := s
  simp only [Sentence.assign_uids]
  simp only [assignList_reassign Token.assign_uids token_assign_reassign,
    assignList_reassign Phrase.assign_uids phrase_assign_reassign,
    assignList_reassign Entity.assign_uids entity_assign_reassign,
    assignList_reassign Dependency.assign_uids dep_assign_reassign]

/-- C1. Identifier allocation is deterministic and collision-free:
counters start at 1; in traversal order (sentences in source order, and
tokens, phrases, entities, then dependencies within each sentence) the
span uids are exactly `T1, T2, ...` and the dependency uids exactly
`R1, R2, ...`, so no two spans and no two dependencies of one document
share a uid; and re-running the allocation pass over an already-allocated
tree reproduces identical identifiers. -/
theorem claim_C1_uid_allocation (d : Document) :
    d.assign_uids.spanUids =
      (List.range d.spanCount).map
        (fun i => some ("T" ++ Nat.repr (1 + i)))
  ∧ d.assign_uids.depUids =
      (List.range d.depCount).map
        (fun i => some ("R" ++ Nat.repr (1 + i)))
  ∧ d.assign_uids.spanUids.Nodup
  ∧ d.assign_uids.depUids.Nodup
  ∧ d.assign_uids.assign_uids = d.assign_uids := by
  have hspan : d.assign_uids.spanUids =
      (List.range d.spanCount).map
        (fun i => some ("T" ++ Nat.repr (1 + i))) := by
    simp only [Document.assign_uids, Document.spanUids, Document.spanCount]
    rw [(assignList_sentence_spec d.sentences idxFresh).1]
    rfl
  have hdep : d.assign_uids.depUids =
      (List.range d.depCount).map
        (fun i => some ("R" ++ Nat.repr (1 + i))) := by
    simp only [Document.assign_uids, Document.depUids, Document.depCount]
    rw [(assignList_sentence_spec d.sentences idxFresh).2.1]
    rfl
  have hinjT : Function.Injective
      (fun i : Nat => some ("T" ++ Nat.repr (1 + i))) := by
    intro i j hij
    simp only [Option.some.injEq] at hij
    by_contra hne
    exact prefixed_repr_injective "T" (by omega) hij
  have hinjR : Function.Injective
      (fun i : Nat => some ("R" ++ Nat.repr (1 + i))) := by
    intro i j hij
    simp only [Option.some.injEq] at hij
    by_contra hne
    exact prefixed_repr_injective "R" (by omega) hij
  refine ⟨hspan, hdep, ?_, ?_, ?_⟩
  · rw [hspan]
    exact (List.nodup_range _).map hinjT
  · rw [hdep]
    exact (List.nodup_range _).map hinjR
  · obtain ⟨di, doid, dtx, ss⟩ := d
    simp only [Document.assign_uids]
    simp only [assignList_reassign Sentence.assign_uids
      sentence_assign_reassign]
end Tees
